import Mathlib

/-!
Verification of the Janus Lua plugin bridge (src/plugins/janus_lua.c).

The development shallowly embeds the plugin's session registry, the
script-facing call-out methods, the RTP/data relay fan-out, the PLI pacing
logic and the coroutine scheduler loop as executable Lean definitions, and
proves the specified properties about them.

Hash tables (GHashTable) are modelled as association lists with unique keys;
pointers to session objects are modelled as the session's unique numeric id
used as an address into a heap.  The reference-counting helpers
(janus_refcount_increase / janus_refcount_decrease / free-at-zero from
janus_refcount.h, which is not part of the provided sources) are modelled
from the spec: "reference-counted session record ... destroyed only when the
last reference is released, at which point ... its id is removed from the
registry".
-/

namespace JanusLua

/-- Lookup in an association list (GHashTable lookup; keys are unique). -/
def alookup {α : Type} : List (Nat × α) → Nat → Option α
  | [], _ => none
  | (k, v) :: rest, i => if k = i then some v else alookup rest i

/-- Update the entry at a key in place (mutation through a looked-up pointer). -/
def aupdate {α : Type} (i : Nat) (f : α → α) : List (Nat × α) → List (Nat × α)
  | [] => []
  | (k, v) :: rest => if k = i then (k, f v) :: rest else (k, v) :: aupdate i f rest

/-- Remove the entry at a key (g_hash_table_remove; keys are unique, so
removing every matching entry is the same operation). -/
def aremove {α : Type} (i : Nat) (l : List (Nat × α)) : List (Nat × α) :=
  l.filter (fun p => p.1 ≠ i)

/--
One Lua plugin session (janus_lua_session, declared in janus_lua_data.h which
is outside the provided sources; fields are those used by janus_lua.c).
`ref` is the janus_refcount counter, `recipients` holds the addresses (ids)
of the sessions this session relays to, `rtpctx` abstracts the
janus_rtp_switching_context.
-/
structure Session where
  id : Nat
  destroyed : Bool
  ref : Nat
  started : Bool
  accept_audio : Bool
  accept_video : Bool
  accept_data : Bool
  send_audio : Bool
  send_video : Bool
  send_data : Bool
  recipients : List Nat
  rtpctx : Nat
deriving DecidableEq, Repr

/-- A fresh session as janus_lua_create_session builds it (g_malloc0 zeroes
every flag; janus_refcount_init sets the counter to one). -/
def freshSession (i : Nat) : Session :=
  { id := i, destroyed := false, ref := 1, started := false,
    accept_audio := false, accept_video := false, accept_data := false,
    send_audio := false, send_video := false, send_data := false,
    recipients := [], rtpctx := 0 }

/--
The registry state: `heap` maps a session id (used as the address of the
session object, and also as the key of the `ids` GHashTable) to the live
session record, and `handles` is the handle-keyed `sessions` GHashTable,
mapping an opaque plugin-handle number to the session address it stores.
A session object lives in `heap` exactly while its refcount has not dropped
to zero (janus_lua_session_free removes the id from `ids` and frees it).
-/
structure Plugin where
  heap : List (Nat × Session)
  handles : List (Nat × Nat)
deriving DecidableEq, Repr

/-- Modelled from the spec: janus_refcount_increase (janus_refcount.h is not
under the provided sources) bumps the session's reference counter. -/
def refinc (i : Nat) (st : Plugin) : Plugin :=
  { st with heap := aupdate i (fun s => { s with ref := s.ref + 1 }) st.heap }

/-- Case split helper for janus_refcount_decrease, applied to the outcome of
the address lookup. -/
def refdecAux (st : Plugin) (i : Nat) : Option Session → Plugin
  | none => st
  | some s =>
    if s.ref ≤ 1 then { st with heap := aremove i st.heap }
    else { st with heap := aupdate i (fun t => { t with ref := t.ref - 1 }) st.heap }

/-- Modelled from the spec: janus_refcount_decrease; when the last reference
is released, janus_lua_session_free runs: the id is removed from the `ids`
table and the object is freed (removed from the heap). -/
def refdec (i : Nat) (st : Plugin) : Plugin :=
  refdecAux st i (alookup st.heap i)

/-- Well-formedness: every live (heap-resident) session holds at least one
reference; a session record with a zero counter would already have been freed. -/
def WFRefs (st : Plugin) : Prop :=
  ∀ i s, alookup st.heap i = some s → 1 ≤ s.ref

/-- Case-insensitive ASCII string comparison (strcasecmp == 0). -/
def strcaseEq (a b : String) : Bool :=
  a.toList.map Char.toLower = b.toList.map Char.toLower

/-- Lookup of a session through the id-keyed `ids` table
(g_hash_table_lookup(ids, GUINT_TO_POINTER(id))). -/
def lookup_by_id (i : Nat) (st : Plugin) : Option Session :=
  alookup st.heap i

/-- Lookup of a session through the handle-keyed `sessions` table: the stored
pointer is followed into the heap. -/
def lookup_by_handle (h : Nat) (st : Plugin) : Option Session :=
  match alookup st.handles h with
  | none => none
  | some i => alookup st.heap i

/-- Session-id resolution as performed inside the call-outs that guard on the
destroyed flag (pushEvent, closePc, configureMedium, addRecipient, setBitrate,
setPliFreq, sendPli, relayRtp/Rtcp/Data, start/stopRecording):
`session == NULL || g_atomic_int_get(&session->destroyed)` fails the call. -/
def resolveSession (i : Nat) (st : Plugin) : Option Session :=
  match alookup st.heap i with
  | none => none
  | some s => if s.destroyed then none else some s

/-- Creation of a session (janus_lua_create_session, lines 1126-1162): a fresh
record is inserted in both the handle-keyed and the id-keyed table.  The C
code draws `newId` at random and retries on collision; the model takes the
collision-free id as an argument. -/
def janus_lua_create_session (h : Nat) (newId : Nat) (st : Plugin) : Plugin :=
  { heap := (newId, freshSession newId) :: st.heap,
    handles := (h, newId) :: st.handles }

/-- Destroy callback of the `sessions` table (janus_lua_session_destroy,
lines 229-233): on the first destruction the flag is set and the registry
reference is released. -/
def janus_lua_session_destroy (i : Nat) (st : Plugin) : Plugin :=
  match alookup st.heap i with
  | none => st
  | some s =>
    if s.destroyed then st
    else refdec i { st with heap := aupdate i (fun t => { t with destroyed := true }) st.heap }

/-- Destruction through the host handle (janus_lua_destroy_session, lines
1164-1190): the handle-keyed entry is removed, which fires the table's
value-destroy callback on the stored session. -/
def janus_lua_destroy_session (h : Nat) (st : Plugin) : Int × Plugin :=
  match alookup st.handles h with
  | none => (-2, st)
  | some i => (0, janus_lua_session_destroy i { st with handles := aremove h st.handles })

/-- Mutation of one session record in the heap. -/
def updSession (i : Nat) (f : Session → Session) (st : Plugin) : Plugin :=
  { st with heap := aupdate i f st.heap }

/-- Script call-out addRecipient (janus_lua_method_addrecipient, lines
499-540): both sessions are resolved with the destroyed-flag check and
temporarily referenced; the recipient is appended only if not already in the
list, in which case one extra reference per side is taken. -/
def janus_lua_method_addrecipient (id rid : Nat) (st : Plugin) : Int × Plugin :=
  match alookup st.heap id with
  | none => (-1, st)
  | some s =>
    if s.destroyed then (-1, st)
    else
      let st1 := refinc id st
      match alookup st1.heap rid with
      | none => (-1, refdec id st1)
      | some r =>
        if r.destroyed then (-1, refdec id st1)
        else
          let st2 := refinc rid st1
          let st3 :=
            match alookup st2.heap id with
            | none => st2
            | some s2 =>
              if rid ∈ s2.recipients then st2
              else
                updSession id (fun t => { t with recipients := t.recipients ++ [rid] })
                  (refinc rid (refinc id st2))
          (0, refdec rid (refdec id st3))

/-- Script call-out removeRecipient (janus_lua_method_removerecipient, lines
542-587).  Note: unlike addRecipient, the two lookups only test for NULL and
do not test the destroyed flag.  If the recipient is found in the list it is
removed and the two relation references are released. -/
def janus_lua_method_removerecipient (id rid : Nat) (st : Plugin) : Int × Plugin :=
  match alookup st.heap id with
  | none => (-1, st)
  | some _ =>
    let st1 := refinc id st
    match alookup st1.heap rid with
    | none => (-1, refdec id st1)
    | some _ =>
      let st2 := refinc rid st1
      let st3 :=
        match alookup st2.heap id with
        | none => st2
        | some s2 =>
          if rid ∈ s2.recipients then
            refdec rid (refdec id
              (updSession id (fun t => { t with recipients := t.recipients.erase rid }) st2))
          else st2
      (0, refdec rid (refdec id st3))

/-- Script call-out configureMedium (janus_lua_method_configuremedium, lines
450-497): medium and direction are matched case-insensitively; an
unrecognized medium changes nothing, a direction other than "in" falls into
the "out" branch, and the call still returns 0. -/
def janus_lua_method_configuremedium (argc : Nat) (id : Nat)
    (medium direction : Option String) (enabled : Bool) (st : Plugin) : Int × Plugin :=
  if argc ≠ 4 then (-1, st)
  else
    match alookup st.heap id with
    | none => (-1, st)
    | some s =>
      if s.destroyed then (-1, st)
      else
        let st1 := refinc id st
        let st2 :=
          match medium, direction with
          | some m, some d =>
            if strcaseEq m "audio" then
              if strcaseEq d "in" then updSession id (fun t => { t with accept_audio := enabled }) st1
              else updSession id (fun t => { t with send_audio := enabled }) st1
            else if strcaseEq m "video" then
              if strcaseEq d "in" then updSession id (fun t => { t with accept_video := enabled }) st1
              else updSession id (fun t => { t with send_video := enabled }) st1
            else if strcaseEq m "data" then
              if strcaseEq d "in" then updSession id (fun t => { t with accept_data := enabled }) st1
              else updSession id (fun t => { t with send_data := enabled }) st1
            else st1
          | _, _ => st1
        (0, refdec id st2)

/-- Outcome of a call-out that may defer work to a helper thread.  `status` is
the number pushed back to the Lua script; the Bool fields record which
resources of the deferred task the call-out itself released synchronously
(json_decref of event and jsep, g_free of the duplicated transaction and of
the janus_lua_async_event, janus_refcount_decrease of the session); `st` is
the registry state when the call-out returns and `spawned` tells whether a
worker thread now owns the task. -/
structure CallOutcome where
  status : Int
  st : Plugin
  eventReleased : Bool
  jsepReleased : Bool
  transactionFreed : Bool
  asevFreed : Bool
  spawned : Bool
deriving DecidableEq, Repr

/-- Script call-out pushEvent (janus_lua_method_pushevent, lines 303-376).
`eventOk`/`jsepOk` are the outcomes of the two json_loads calls, `launchOk`
the outcome of g_thread_try_new, `pushRes` the result of gateway->push_event
on the synchronous (no-jsep) path.  On the jsep path with a failed launch the
caller itself frees the event, the jsep, the transaction copy and the task,
releases the session reference, and pushes `error ? 1 : 0`, i.e. 1. -/
def janus_lua_method_pushevent (argc : Nat) (id : Nat) (eventOk : Bool)
    (jsepPresent jsepOk : Bool) (launchOk : Bool) (pushRes : Int)
    (st : Plugin) : CallOutcome :=
  if argc ≠ 4 then
    { status := -1, st := st, eventReleased := false, jsepReleased := false,
      transactionFreed := false, asevFreed := false, spawned := false }
  else if ¬eventOk then
    { status := -1, st := st, eventReleased := false, jsepReleased := false,
      transactionFreed := false, asevFreed := false, spawned := false }
  else if jsepPresent ∧ ¬jsepOk then
    { status := -1, st := st, eventReleased := true, jsepReleased := false,
      transactionFreed := false, asevFreed := false, spawned := false }
  else
    match resolveSession id st with
    | none =>
      { status := -1, st := st, eventReleased := true, jsepReleased := jsepPresent,
        transactionFreed := false, asevFreed := false, spawned := false }
    | some _ =>
      let st1 := refinc id st
      if jsepPresent then
        if launchOk then
          { status := 0, st := st1, eventReleased := false, jsepReleased := false,
            transactionFreed := false, asevFreed := false, spawned := true }
        else
          { status := 1, st := refdec id st1, eventReleased := true, jsepReleased := true,
            transactionFreed := true, asevFreed := true, spawned := false }
      else
        { status := pushRes, st := refdec id st1, eventReleased := true,
          jsepReleased := false, transactionFreed := false, asevFreed := false,
          spawned := false }

/-- Script call-out closePc (janus_lua_method_closepc, lines 410-448): always
defers to a helper thread; if the launch fails the caller releases the
session reference, frees the task and pushes `error ? 1 : 0`, i.e. 1. -/
def janus_lua_method_closepc (argc : Nat) (id : Nat) (launchOk : Bool)
    (st : Plugin) : CallOutcome :=
  if argc ≠ 1 then
    { status := -1, st := st, eventReleased := false, jsepReleased := false,
      transactionFreed := false, asevFreed := false, spawned := false }
  else
    match resolveSession id st with
    | none =>
      { status := -1, st := st, eventReleased := false, jsepReleased := false,
        transactionFreed := false, asevFreed := false, spawned := false }
    | some _ =>
      let st1 := refinc id st
      if launchOk then
        { status := 0, st := st1, eventReleased := false, jsepReleased := false,
          transactionFreed := false, asevFreed := false, spawned := true }
      else
        { status := 1, st := refdec id st1, eventReleased := false, jsepReleased := false,
          transactionFreed := false, asevFreed := true, spawned := false }

/-- One medium to record, as four consecutive Lua arguments; `createOk` is
the outcome of the janus_recorder_create collaborator call for this spec
(the recorder module is outside the provided sources). -/
structure RecSpec where
  rtype : String
  createOk : Bool
deriving DecidableEq, Repr

/-- The three per-session recorder slots (session->arc/vrc/drc); an open
recorder is identified by its allocation number. -/
structure Recorders where
  arc : Option Nat
  vrc : Option Nat
  drc : Option Nat
deriving DecidableEq, Repr

/-- Result of a startRecording call: the status pushed to Lua, the session's
recorder slots after the call, every recorder allocated during the call (in
order) and every recorder handed to janus_recorder_free during the call. -/
structure RecResult where
  status : Int
  recs : Recorders
  opened : List Nat
  freed : List Nat
deriving DecidableEq, Repr

/-- List of the ids held by the local arc/vrc/drc variables. -/
def optList : Option Nat → List Nat
  | none => []
  | some a => [a]

/-- The argument loop of janus_lua_method_startrecording (lines 797-858):
each spec allocates a recorder first, then is matched against the three media
case-insensitively; a duplicate (local variable already set, or session slot
already recording) jumps to the error label, which frees the recorders held
by the local variables and leaves the session slots untouched.  On success
each set local variable is committed to its session slot. -/
def startRecLoop (sess : Recorders) : List RecSpec → Nat → Option Nat → Option Nat →
    Option Nat → List Nat → RecResult
  | [], _, arc, vrc, drc, opened =>
    { status := 0,
      recs := { arc := match arc with | some a => some a | none => sess.arc,
                vrc := match vrc with | some v => some v | none => sess.vrc,
                drc := match drc with | some d => some d | none => sess.drc },
      opened := opened, freed := [] }
  | spec :: rest, cnt, arc, vrc, drc, opened =>
    if ¬spec.createOk then
      { status := -1, recs := sess, opened := opened,
        freed := optList arc ++ optList vrc ++ optList drc }
    else
      let opened2 := opened ++ [cnt]
      if strcaseEq spec.rtype "audio" then
        if arc.isSome ∨ sess.arc.isSome then
          { status := -1, recs := sess, opened := opened2,
            freed := optList arc ++ optList vrc ++ optList drc }
        else startRecLoop sess rest (cnt + 1) (some cnt) vrc drc opened2
      else if strcaseEq spec.rtype "video" then
        if vrc.isSome ∨ sess.vrc.isSome then
          { status := -1, recs := sess, opened := opened2,
            freed := optList arc ++ optList vrc ++ optList drc }
        else startRecLoop sess rest (cnt + 1) arc (some cnt) drc opened2
      else if strcaseEq spec.rtype "data" then
        if drc.isSome ∨ sess.drc.isSome then
          { status := -1, recs := sess, opened := opened2,
            freed := optList arc ++ optList vrc ++ optList drc }
        else startRecLoop sess rest (cnt + 1) arc vrc (some cnt) opened2
      else startRecLoop sess rest (cnt + 1) arc vrc drc opened2

/-- Script call-out startRecording (janus_lua_method_startrecording, lines
777-859) for an existing, non-destroyed session, given as its recorder
slots.  The Lua argument count 5/9/13 corresponds to 1-3 specs. -/
def janus_lua_method_startrecording (specs : List RecSpec) (sess : Recorders) : RecResult :=
  startRecLoop sess specs 0 none none none []

/-- Outcome of the script-path check in janus_lua_init (lines 941-948).  The
janus_config collaborators are outside the provided sources: the
configuration's general/script item is modelled as `none` when absent and
`some v` when present with value `v` (itself an Option, as the item's value
pointer may be NULL). -/
inductive InitOutcome
  | nullDeref
  | errReturn
  | proceed (luaFile : Option String)
deriving DecidableEq, Repr

/-- The guard `if(script == NULL && script->value == NULL)` of
janus_lua_init with C short-circuit evaluation: when the item is NULL the
second conjunct dereferences the NULL pointer; when the item is present the
conjunction is false whatever the value, and init proceeds to
`g_strdup(script->value)`. -/
def janus_lua_init_script_check (script : Option (Option String)) : InitOutcome :=
  match script with
  | none => InitOutcome.nullDeref
  | some v => InitOutcome.proceed v

/-- Modelled from the spec: the intended required-field validation of the
script path ("treat any such checks as intended required-field validation
... and implement them as true presence checks"; "missing required script
functions, script load failure — abort initialization"). -/
def init_script_check_intended (script : Option (Option String)) : InitOutcome :=
  match script with
  | none => InitOutcome.errReturn
  | some none => InitOutcome.errReturn
  | some (some v) => InitOutcome.proceed (some v)

/-- Byte swap of a 16-bit value (ntohs/htons on a little-endian host; the two
functions are the same involution, and on a big-endian host both are the
identity, which is an involution as well). -/
def byteswap16 (x : Nat) : Nat :=
  (x % 256) * 256 + (x / 256 % 256)

/-- Byte swap of a 32-bit value (ntohl/htonl). -/
def byteswap32 (x : Nat) : Nat :=
  (x % 256) * 16777216 + (x / 256 % 256) * 65536 +
    (x / 256 / 256 % 256) * 256 + (x / 256 / 256 / 256 % 256)

/-- The RTP header fields that janus_lua.c touches, kept in network byte
order exactly as they sit in the packet buffer. -/
structure RtpHeader where
  timestamp : Nat
  seq_number : Nat
deriving DecidableEq, Repr

/-- The relay workspace (janus_lua_rtp_relay_packet, lines 248-254): a
pointer to the header in the buffer plus the host-order backup of the
timestamp and sequence number the publisher set. -/
structure RtpRelayPacket where
  hdr : RtpHeader
  length : Nat
  is_video : Bool
  timestamp : Nat
  seq_number : Nat
deriving DecidableEq, Repr

/-- Relay of the packet to one recipient (janus_lua_relay_rtp_packet, lines
1492-1518).  `update` abstracts janus_rtp_header_update (janus core, outside
the provided sources): given the recipient's switching context and the
medium it rewrites the header in the buffer arbitrarily.  After the send the
code restores the buffer's timestamp and sequence number from the backups:
`packet->data->timestamp = htonl(packet->timestamp)` and likewise for the
sequence number. -/
def janus_lua_relay_rtp_packet (update : Nat → Bool → RtpHeader → RtpHeader)
    (recipient : Session) (p : RtpRelayPacket) : RtpRelayPacket :=
  if p.length < 1 then p
  else if ¬recipient.started then p
  else if (p.is_video ∧ ¬recipient.accept_video) ∨ (¬p.is_video ∧ ¬recipient.accept_audio) then p
  else
    let _hdr1 := update recipient.rtpctx p.is_video p.hdr
    let hdr2 : RtpHeader :=
      { timestamp := byteswap32 p.timestamp, seq_number := byteswap16 p.seq_number }
    { p with hdr := hdr2 }

/-- The relay fan-out of janus_lua_incoming_rtp (lines 1294-1348), returning
the header left in the packet buffer after the loop over the recipients.
The backups are taken once before the loop:
`packet.timestamp = ntohl(packet.data->timestamp)` and likewise for the
sequence number. -/
def janus_lua_incoming_rtp (update : Nat → Bool → RtpHeader → RtpHeader)
    (hasIncomingRtp : Bool) (video : Bool) (hdr : RtpHeader) (len : Nat)
    (src : Session) (recipients : List Session) : RtpHeader :=
  if hasIncomingRtp then hdr
  else if (video ∧ ¬src.send_video) ∨ (¬video ∧ ¬src.send_audio) then hdr
  else
    let p : RtpRelayPacket :=
      { hdr := hdr, length := len, is_video := video,
        timestamp := byteswap32 hdr.timestamp, seq_number := byteswap16 hdr.seq_number }
    (recipients.foldl (fun q r => janus_lua_relay_rtp_packet update r q) p).hdr

/-- The two tokens pushed on the scheduler's GAsyncQueue
(janus_lua_event_resume and janus_lua_event_exit). -/
inductive SchedEvent
  | evResume
  | evExit
deriving DecidableEq, Repr

/-- The scheduler thread loop (janus_lua_scheduler, lines 1536-1555), run on
the queued tokens in arrival order: an exit token breaks the loop, a resume
token performs one resumeScheduler call-in.  The result is the number of
resumeScheduler call-ins performed. -/
def janus_lua_scheduler : List SchedEvent → Nat
  | [] => 0
  | SchedEvent.evExit :: _ => 0
  | SchedEvent.evResume :: rest => janus_lua_scheduler rest + 1

/-- Microseconds per second (G_USEC_PER_SEC). -/
def gUsecPerSec : Nat := 1000000

/-- The keyframe-request pacing of janus_lua_incoming_rtp (lines 1336-1347)
for one incoming video packet arriving at monotonic time `now`: a PLI is sent
only when a positive interval is configured and at least that interval has
elapsed since `pliLatest`, in which case `pli_latest` is set to `now`.
Returns whether a PLI was sent and the new `pli_latest`. -/
def pliCheck (pliFreq : Nat) (pliLatest : Int) (now : Int) : Bool × Int :=
  if 0 < pliFreq ∧ (pliFreq * gUsecPerSec : Int) ≤ now - pliLatest then (true, now)
  else (false, pliLatest)

/-- The pacing state machine over a sequence of incoming-video arrival times:
returns the times at which a PLI was sent. -/
def pliRun (pliFreq : Nat) : Int → List Int → List Int
  | _, [] => []
  | latest, now :: rest =>
    match pliCheck pliFreq latest now with
    | (true, latest2) => now :: pliRun pliFreq latest2 rest
    | (false, latest2) => pliRun pliFreq latest2 rest

/-- A list of send times is well spaced after `latest` when each time is at
least the configured interval after the previous one (and the first at least
the interval after `latest`). -/
def wellSpaced (pliFreq : Nat) : Int → List Int → Bool
  | _, [] => true
  | latest, t :: rest =>
    decide ((pliFreq * gUsecPerSec : Int) ≤ t - latest) && wellSpaced pliFreq t rest

/-- The atomic steps of the relay fan-out that involve the per-session
recipient list lock and the native relay calls. -/
inductive RelayAct
  | lockRecipients
  | relayPkt (sid : Nat)
  | unlockRecipients
deriving DecidableEq, Repr

/-- The order of lock and relay operations in janus_lua_incoming_rtp (lines
1331-1334): the recipients mutex is taken, g_slist_foreach relays to every
recipient, and only then is the mutex released. -/
def rtpFanoutTrace (recipients : List Nat) : List RelayAct :=
  RelayAct.lockRecipients :: (recipients.map RelayAct.relayPkt ++ [RelayAct.unlockRecipients])

/-- The same order in janus_lua_incoming_data (lines 1425-1428). -/
def dataFanoutTrace (recipients : List Nat) : List RelayAct :=
  RelayAct.lockRecipients :: (recipients.map RelayAct.relayPkt ++ [RelayAct.unlockRecipients])

/-- Does some native relay call occur before the first release of the
recipient-list lock?  (The claimed snapshot discipline requires this to be
false.) -/
def relayBeforeUnlock : List RelayAct → Bool
  | [] => false
  | RelayAct.unlockRecipients :: _ => false
  | RelayAct.relayPkt _ :: _ => true
  | RelayAct.lockRecipients :: rest => relayBeforeUnlock rest

/-- Does some native relay call occur while the recipient-list lock is not
held (lock depth zero)? -/
def relayWhileUnlocked : Nat → List RelayAct → Bool
  | _, [] => false
  | d, RelayAct.lockRecipients :: rest => relayWhileUnlocked (d + 1) rest
  | d, RelayAct.unlockRecipients :: rest => relayWhileUnlocked (d - 1) rest
  | d, RelayAct.relayPkt _ :: rest => if d = 0 then true else relayWhileUnlocked d rest

/-- The recipient list of a session, as seen through its id. -/
def recipientsOf (i : Nat) (st : Plugin) : List Nat :=
  match alookup st.heap i with
  | none => []
  | some s => s.recipients

/-- The three media a startRecording spec can name. -/
inductive Medium
  | maudio
  | mvideo
  | mdata
deriving DecidableEq, Repr

/-- Classification of a spec's type string by the strcasecmp cascade of the
recording loop. -/
def mediumOf (t : String) : Option Medium :=
  if strcaseEq t "audio" then some Medium.maudio
  else if strcaseEq t "video" then some Medium.mvideo
  else if strcaseEq t "data" then some Medium.mdata
  else none

/-- The session recorder slot for a medium. -/
def sessSlot : Medium → Recorders → Option Nat
  | Medium.maudio, r => r.arc
  | Medium.mvideo, r => r.vrc
  | Medium.mdata, r => r.drc

/-- Whether a spec names a medium the session is already recording. -/
def specBusy (sess : Recorders) (sp : RecSpec) : Bool :=
  match mediumOf sp.rtype with
  | some m => (sessSlot m sess).isSome
  | none => false

/-- The local recorder slot of the loop for a medium. -/
def localSlot : Medium → Option Nat → Option Nat → Option Nat → Option Nat
  | Medium.maudio, arc, _, _ => arc
  | Medium.mvideo, _, vrc, _ => vrc
  | Medium.mdata, _, _, drc => drc

/-- A registry with two attached sessions where session 1 already relays to
session 2 (each side of the relation holds one reference on top of the
registry's). -/
def twoSessionsLinked : Plugin :=
  { heap := [(1, { freshSession 1 with ref := 2, recipients := [2] }),
             (2, { freshSession 2 with ref := 2 })],
    handles := [(10, 1), (20, 2)] }

/-- A registry with one attached session of id 5. -/
def oneSession : Plugin :=
  { heap := [(5, freshSession 5)], handles := [(50, 5)] }

/-- The registry reached by attaching sessions 1 and 2, making 2 a recipient
of 1, and then destroying session 2 through its handle: the relation still
holds a reference on session 2, so the destroyed record stays in the
id-keyed table. -/
def destroyedButReferenced : Plugin :=
  (janus_lua_destroy_session 20
    (janus_lua_method_addrecipient 1 2
      (janus_lua_create_session 20 2
        (janus_lua_create_session 10 1 { heap := [], handles := [] }))).2).2

theorem alookup_aupdate_self {α : Type} (l : List (Nat × α)) (f : α → α) (i : Nat) :
    alookup (aupdate i f l) i = (alookup l i).map f := by
  induction l with
  | nil => rfl
  | cons p rest ih =>
    obtain ⟨k, v⟩ := p
    by_cases h : k = i <;> simp [aupdate, alookup, h, ih]

theorem alookup_aupdate_ne {α : Type} (l : List (Nat × α)) (f : α → α) {i j : Nat}
    (h : i ≠ j) : alookup (aupdate j f l) i = alookup l i := by
  induction l with
  | nil => rfl
  | cons p rest ih =>
    obtain ⟨k, v⟩ := p
    by_cases hk : k = j
    · subst hk
      simp [aupdate, alookup, Ne.symm h]
    · by_cases hk2 : k = i <;> simp [aupdate, alookup, hk, hk2, h, ih]

theorem aupdate_aupdate_self {α : Type} (l : List (Nat × α)) (f g : α → α) (i : Nat) :
    aupdate i f (aupdate i g l) = aupdate i (fun a => f (g a)) l := by
  induction l with
  | nil => rfl
  | cons p rest ih =>
    obtain ⟨k, v⟩ := p
    by_cases h : k = i <;> simp [aupdate, h, ih]

theorem aupdate_comm {α : Type} (l : List (Nat × α)) (f g : α → α) {i j : Nat}
    (h : i ≠ j) : aupdate i f (aupdate j g l) = aupdate j g (aupdate i f l) := by
  induction l with
  | nil => rfl
  | cons p rest ih =>
    obtain ⟨k, v⟩ := p
    by_cases hk : k = j
    · subst hk
      simp [aupdate, Ne.symm h, h, ih]
    · by_cases hk2 : k = i <;> simp [aupdate, hk, hk2, h, ih]

theorem aupdate_congr {α : Type} (l : List (Nat × α)) {f g : α → α} (i : Nat)
    (h : ∀ a, f a = g a) : aupdate i f l = aupdate i g l := by
  induction l with
  | nil => rfl
  | cons p rest ih =>
    obtain ⟨k, v⟩ := p
    by_cases hk : k = i <;> simp [aupdate, hk, ih, h]

theorem aupdate_id {α : Type} (l : List (Nat × α)) (i : Nat) :
    aupdate i (fun a => a) l = l := by
  induction l with
  | nil => rfl
  | cons p rest ih =>
    obtain ⟨k, v⟩ := p
    by_cases hk : k = i <;> simp [aupdate, hk, ih]

theorem aupdate_of_lookup_none {α : Type} (l : List (Nat × α)) (f : α → α) (i : Nat)
    (h : alookup l i = none) : aupdate i f l = l := by
  induction l with
  | nil => rfl
  | cons p rest ih =>
    obtain ⟨k, v⟩ := p
    by_cases hk : k = i
    · simp [alookup, hk] at h
    · simp [alookup, hk] at h
      simp [aupdate, hk, ih h]

theorem alookup_aremove_self {α : Type} (l : List (Nat × α)) (i : Nat) :
    alookup (aremove i l) i = none := by
  induction l with
  | nil => rfl
  | cons p rest ih =>
    obtain ⟨k, v⟩ := p
    by_cases hk : k = i
    · simpa [aremove, List.filter_cons, hk] using ih
    · simpa [aremove, List.filter_cons, hk, alookup] using ih

theorem alookup_aremove_ne {α : Type} (l : List (Nat × α)) {i j : Nat} (h : i ≠ j) :
    alookup (aremove j l) i = alookup l i := by
  induction l with
  | nil => rfl
  | cons p rest ih =>
    obtain ⟨k, v⟩ := p
    by_cases hk : k = j
    · subst hk
      simpa [aremove, List.filter_cons, alookup, Ne.symm h] using ih
    · by_cases hk2 : k = i
      · simp [aremove, List.filter_cons, alookup, hk, hk2, h]
      · simpa [aremove, List.filter_cons, alookup, hk, hk2, h] using ih

theorem refinc_of_lookup_none {st : Plugin} {i : Nat}
    (h : alookup st.heap i = none) : refinc i st = st := by
  cases st
  simp [refinc, aupdate_of_lookup_none _ _ _ h]

theorem refdec_of_lookup_none {st : Plugin} {i : Nat}
    (h : alookup st.heap i = none) : refdec i st = st := by
  rw [refdec, h]
  rfl

theorem refdec_of_lookup_ge2 {st : Plugin} {i : Nat} {s : Session}
    (h : alookup st.heap i = some s) (h2 : 2 ≤ s.ref) :
    refdec i st = { st with heap := aupdate i (fun t => { t with ref := t.ref - 1 }) st.heap } := by
  rw [refdec, h]
  show (if s.ref ≤ 1 then _ else _) = _
  rw [if_neg (by omega)]

theorem refdec_of_lookup_one {st : Plugin} {i : Nat} {s : Session}
    (h : alookup st.heap i = some s) (h1 : s.ref = 1) :
    refdec i st = { st with heap := aremove i st.heap } := by
  rw [refdec, h]
  show (if s.ref ≤ 1 then _ else _) = _
  rw [if_pos (by omega)]

theorem refdec_refinc (i : Nat) (st : Plugin) (hwf : WFRefs st) :
    refdec i (refinc i st) = st := by
  cases hlk : alookup st.heap i with
  | none =>
    rw [refinc_of_lookup_none hlk, refdec_of_lookup_none hlk]
  | some s =>
    have href : 1 ≤ s.ref := hwf i s hlk
    have hlk2 : alookup (refinc i st).heap i = some { s with ref := s.ref + 1 } := by
      simp [refinc, alookup_aupdate_self, hlk]
    rw [refdec_of_lookup_ge2 hlk2 (by simp; omega)]
    have hheap : aupdate i (fun t => { t with ref := t.ref - 1 }) (refinc i st).heap = st.heap := by
      show aupdate i _ (aupdate i _ st.heap) = st.heap
      rw [aupdate_aupdate_self]
      have heq : ∀ a : Session,
          ({ ({ a with ref := a.ref + 1 } : Session) with
              ref := ({ a with ref := a.ref + 1 } : Session).ref - 1 } : Session) = a := by
        intro a
        simp
      rw [aupdate_congr st.heap i heq, aupdate_id]
    cases st
    simp only [refinc] at hheap ⊢
    simp [hheap]

theorem aupdate_lookup_congr {α : Type} (l : List (Nat × α)) {i : Nat} {f g : α → α}
    (hv : ∀ v, alookup l i = some v → f v = g v) : aupdate i f l = aupdate i g l := by
  induction l with
  | nil => rfl
  | cons p rest ih =>
    obtain ⟨k, v⟩ := p
    by_cases hk : k = i
    · have := hv v (by simp [alookup, hk])
      simp [aupdate, hk, this]
    · have hv2 : ∀ w, alookup rest i = some w → f w = g w := by
        intro w hw
        exact hv w (by simp [alookup, hk, hw])
      simp [aupdate, hk, ih hv2]

theorem aupdate_lookup_id {α : Type} (l : List (Nat × α)) {i : Nat} {f : α → α}
    (hv : ∀ v, alookup l i = some v → f v = v) : aupdate i f l = l := by
  rw [aupdate_lookup_congr l hv]
  exact aupdate_id l i

theorem refdec_refinc_at {st : Plugin} {i : Nat} {s : Session}
    (hlk : alookup st.heap i = some s) (href : 1 ≤ s.ref) :
    refdec i (refinc i st) = st := by
  have hlk2 : alookup (refinc i st).heap i = some { s with ref := s.ref + 1 } := by
    simp [refinc, alookup_aupdate_self, hlk]
  rw [refdec_of_lookup_ge2 hlk2 (by simp; omega)]
  have hheap : aupdate i (fun t => { t with ref := t.ref - 1 }) (refinc i st).heap = st.heap := by
    show aupdate i _ (aupdate i _ st.heap) = st.heap
    rw [aupdate_aupdate_self]
    exact aupdate_lookup_id st.heap (fun v _ => rfl)
  cases st
  simp only [refinc] at hheap ⊢
  simp [hheap]

theorem refdec_upd_refinc {st : Plugin} {i : Nat} {s : Session} (f : Session → Session)
    (hlk : alookup st.heap i = some s) (href : 1 ≤ s.ref)
    (hcomm : ∀ (t : Session) (r : Nat), f { t with ref := r } = { f t with ref := r }) :
    refdec i (updSession i f (refinc i st)) = updSession i f st := by
  have hf : ∀ t : Session, (f t).ref = t.ref := by
    intro t
    calc (f t).ref = (f { t with ref := t.ref }).ref := rfl
    _ = ({ f t with ref := t.ref } : Session).ref := by rw [hcomm]
    _ = t.ref := rfl
  have hlk2 : alookup (updSession i f (refinc i st)).heap i =
      some (f { s with ref := s.ref + 1 }) := by
    simp [updSession, refinc, alookup_aupdate_self, hlk]
  rw [refdec_of_lookup_ge2 hlk2 (by rw [hf]; simp; omega)]
  have hheap : aupdate i (fun t => { t with ref := t.ref - 1 })
      (updSession i f (refinc i st)).heap = aupdate i f st.heap := by
    show aupdate i _ (aupdate i f (aupdate i _ st.heap)) = aupdate i f st.heap
    rw [aupdate_aupdate_self, aupdate_aupdate_self]
    refine aupdate_congr st.heap i (fun a => ?_)
    calc ({ f { a with ref := a.ref + 1 } with
            ref := (f { a with ref := a.ref + 1 }).ref - 1 } : Session)
        = ({ ({ f a with ref := a.ref + 1 } : Session) with
            ref := ({ f a with ref := a.ref + 1 } : Session).ref - 1 } : Session) := by rw [hcomm]
      _ = ({ f a with ref := a.ref + 1 - 1 } : Session) := rfl
      _ = ({ f a with ref := (f a).ref } : Session) := by rw [Nat.add_sub_cancel, hf]
      _ = f a := rfl
  cases st
  simp only [updSession, refinc] at hheap ⊢
  simp [hheap]

/-- C5: the code's guard `if(script == NULL && script->value == NULL)` is not
a presence check: with the script item absent it dereferences the NULL item
pointer instead of detecting the missing field and returning -1, and with the
item present but valueless it proceeds instead of aborting; the intended
check (modelled from the spec) aborts in both cases. -/
theorem c5_init_script_check_is_broken :
    janus_lua_init_script_check none = InitOutcome.nullDeref ∧
    janus_lua_init_script_check none ≠ InitOutcome.errReturn ∧
    janus_lua_init_script_check (some none) = InitOutcome.proceed none ∧
    janus_lua_init_script_check (some none) ≠ InitOutcome.errReturn ∧
    init_script_check_intended none = InitOutcome.errReturn ∧
    init_script_check_intended (some none) = InitOutcome.errReturn := by
  decide

/-- C7: once the exit token is popped, the scheduler loop terminates and the
number of resumeScheduler call-ins it performed equals the number of resume
tokens before the exit token, whatever resume tokens are still queued after
it. -/
theorem c7_scheduler_stops_at_exit (xs ys : List SchedEvent)
    (h : SchedEvent.evExit ∉ xs) :
    janus_lua_scheduler (xs ++ SchedEvent.evExit :: ys) =
      xs.count SchedEvent.evResume := by
  induction xs with
  | nil => simp [janus_lua_scheduler]
  | cons e rest ih =>
    cases e with
    | evExit => exact absurd (List.mem_cons_self _ _) h
    | evResume =>
      have h2 : SchedEvent.evExit ∉ rest := fun hm => h (List.mem_cons_of_mem _ hm)
      simp [janus_lua_scheduler, ih h2, List.count_cons]

theorem c7_scheduler_stops_at_exit_witness :
    janus_lua_scheduler ([SchedEvent.evResume, SchedEvent.evResume] ++
        SchedEvent.evExit :: [SchedEvent.evResume, SchedEvent.evResume]) =
      [SchedEvent.evResume, SchedEvent.evResume].count SchedEvent.evResume :=
  c7_scheduler_stops_at_exit [SchedEvent.evResume, SchedEvent.evResume]
    [SchedEvent.evResume, SchedEvent.evResume] (by decide)

/-- C8: over any sequence of incoming video packets, the PLIs sent by the
pacing logic are spaced at least pli_freq seconds apart, starting from the
recorded time of the last request: a request is sent only when the interval
has elapsed since pli_latest, and sending one sets pli_latest to now. -/
theorem c8_pli_pacing (pliFreq : Nat) (latest : Int) (times : List Int) :
    wellSpaced pliFreq latest (pliRun pliFreq latest times) = true := by
  induction times generalizing latest with
  | nil => rfl
  | cons now rest ih =>
    by_cases h : 0 < pliFreq ∧ (pliFreq * gUsecPerSec : Int) ≤ now - latest
    · simp [pliRun, pliCheck, h, wellSpaced, h.2, ih]
    · simp [pliRun, pliCheck, h, ih]

/-- C9 counterexample: with a single recipient, both the RTP and the data
fan-out perform a native relay call before the recipient-list lock is
released, so the claimed snapshot discipline (lock released before any relay
call) does not hold. -/
theorem c9_counterexample :
    relayBeforeUnlock (rtpFanoutTrace [7]) = true ∧
    relayBeforeUnlock (dataFanoutTrace [7]) = true := by
  decide

/-- C9 amended: every native relay call of the RTP and data fan-out happens
while the per-session recipient-list lock is held (never at lock depth
zero), and whenever there is at least one recipient some relay call precedes
the unlock, so an in-flight relay can block concurrent mutation of the
recipient list. -/
theorem c9_relay_in_critical_section (recipients : List Nat) :
    relayWhileUnlocked 0 (rtpFanoutTrace recipients) = false ∧
    relayWhileUnlocked 0 (dataFanoutTrace recipients) = false ∧
    (recipients ≠ [] → relayBeforeUnlock (rtpFanoutTrace recipients) = true ∧
      relayBeforeUnlock (dataFanoutTrace recipients) = true) := by
  have key : ∀ (l : List Nat) (d : Nat), d ≠ 0 →
      relayWhileUnlocked d (l.map RelayAct.relayPkt ++ [RelayAct.unlockRecipients]) = false := by
    intro l
    induction l with
    | nil => intro d hd; simp [relayWhileUnlocked]
    | cons r rest ih =>
      intro d hd
      simp only [List.map_cons, List.cons_append, relayWhileUnlocked, if_neg hd]
      exact ih d hd
  refine ⟨?_, ?_, ?_⟩
  · show relayWhileUnlocked 1 _ = false
    exact key recipients 1 one_ne_zero
  · show relayWhileUnlocked 1 _ = false
    exact key recipients 1 one_ne_zero
  · intro hne
    cases recipients with
    | nil => exact absurd rfl hne
    | cons r rest => exact ⟨rfl, rfl⟩

theorem c9_relay_in_critical_section_witness :
    relayWhileUnlocked 0 (rtpFanoutTrace [3]) = false ∧
    relayWhileUnlocked 0 (dataFanoutTrace [3]) = false ∧
    relayBeforeUnlock (rtpFanoutTrace [3]) = true ∧
    relayBeforeUnlock (dataFanoutTrace [3]) = true := by
  refine ⟨(c9_relay_in_critical_section [3]).1, (c9_relay_in_critical_section [3]).2.1,
    ((c9_relay_in_critical_section [3]).2.2 (by decide)).1,
    ((c9_relay_in_critical_section [3]).2.2 (by decide)).2⟩

theorem byteswap16_involution (x : Nat) (h : x < 65536) :
    byteswap16 (byteswap16 x) = x := by
  unfold byteswap16
  have e1 : (x % 256 * 256 + x / 256 % 256) % 256 = x / 256 % 256 := by omega
  have e2 : (x % 256 * 256 + x / 256 % 256) / 256 = x % 256 := by omega
  rw [e1, e2]
  omega

theorem byteswap32_digits (a b c d : Nat) (ha : a < 256) (hb : b < 256) (hc : c < 256)
    (hd : d < 256) :
    byteswap32 (a * 16777216 + b * 65536 + c * 256 + d) =
      d * 16777216 + c * 65536 + b * 256 + a := by
  have e1 : (a * 16777216 + b * 65536 + c * 256 + d) % 256 = d := by omega
  have e2 : (a * 16777216 + b * 65536 + c * 256 + d) / 256 % 256 = c := by omega
  have e3 : (a * 16777216 + b * 65536 + c * 256 + d) / 256 / 256 % 256 = b := by omega
  have e4 : (a * 16777216 + b * 65536 + c * 256 + d) / 256 / 256 / 256 % 256 = a := by
    omega
  unfold byteswap32
  rw [e1, e2, e3, e4]

theorem byteswap32_involution (x : Nat) (h : x < 4294967296) :
    byteswap32 (byteswap32 x) = x := by
  have h1 : byteswap32 x = (x % 256) * 16777216 + (x / 256 % 256) * 65536 +
      (x / 256 / 256 % 256) * 256 + (x / 256 / 256 / 256 % 256) := rfl
  rw [h1, byteswap32_digits _ _ _ _ (by omega) (by omega) (by omega) (by omega)]
  omega

theorem relay_rtp_packet_preserved (update : Nat → Bool → RtpHeader → RtpHeader)
    (r : Session) (p : RtpRelayPacket)
    (h1 : byteswap32 p.timestamp = p.hdr.timestamp)
    (h2 : byteswap16 p.seq_number = p.hdr.seq_number) :
    janus_lua_relay_rtp_packet update r p = p := by
  unfold janus_lua_relay_rtp_packet
  split_ifs with hb1 hb2 hb3 <;> try rfl
  have hact : ({ p with
      hdr := RtpHeader.mk (byteswap32 p.timestamp) (byteswap16 p.seq_number) } :
      RtpRelayPacket) = p := by
    rw [h1, h2]
  exact hact

theorem relay_fold_preserved (update : Nat → Bool → RtpHeader → RtpHeader)
    (l : List Session) (p : RtpRelayPacket)
    (h1 : byteswap32 p.timestamp = p.hdr.timestamp)
    (h2 : byteswap16 p.seq_number = p.hdr.seq_number) :
    l.foldl (fun q r => janus_lua_relay_rtp_packet update r q) p = p := by
  induction l with
  | nil => rfl
  | cons r rest ih =>
    show rest.foldl _ (janus_lua_relay_rtp_packet update r p) = p
    rw [relay_rtp_packet_preserved update r p h1 h2]
    exact ih

/-- C4: whatever rewrite janus_rtp_header_update applies per recipient, after
the fan-out over all recipients the packet buffer's timestamp and sequence
number fields equal the values originally set by the source, because each
active relay step restores them from the backups taken before the loop. -/
theorem c4_source_header_restored (update : Nat → Bool → RtpHeader → RtpHeader)
    (hasRtp video : Bool) (hdr : RtpHeader) (len : Nat) (src : Session)
    (recipients : List Session)
    (hts : hdr.timestamp < 4294967296) (hseq : hdr.seq_number < 65536) :
    janus_lua_incoming_rtp update hasRtp video hdr len src recipients = hdr := by
  unfold janus_lua_incoming_rtp
  split_ifs with hb1 hb2
  · rfl
  · rfl
  · exact congrArg RtpRelayPacket.hdr
      (relay_fold_preserved update recipients
        { hdr := hdr, length := len, is_video := video,
          timestamp := byteswap32 hdr.timestamp, seq_number := byteswap16 hdr.seq_number }
        (byteswap32_involution _ hts) (byteswap16_involution _ hseq))

theorem c4_source_header_restored_witness :
    janus_lua_incoming_rtp (fun _ _ h => { timestamp := h.timestamp + 1, seq_number := 0 })
      false true { timestamp := 3735928559, seq_number := 48879 } 100
      { freshSession 1 with send_video := true }
      [{ freshSession 2 with started := true, accept_video := true }] =
      { timestamp := 3735928559, seq_number := 48879 } :=
  c4_source_header_restored (fun _ _ h => { timestamp := h.timestamp + 1, seq_number := 0 })
    false true { timestamp := 3735928559, seq_number := 48879 } 100
    { freshSession 1 with send_video := true }
    [{ freshSession 2 with started := true, accept_video := true }]
    (by decide) (by decide)

theorem strcaseEq_trans_ne {m a b : String} (h1 : strcaseEq m a = true)
    (hne : strcaseEq a b = false) : strcaseEq m b = false := by
  simp only [strcaseEq, decide_eq_true_eq, decide_eq_false_iff_not] at h1 hne ⊢
  rw [h1]
  exact hne

/-- C1 counterexample: with a valid session and a jsep payload, when the
deferred-execution worker fails to launch, pushEvent returns 1 — a positive,
not negative, status — and so does closePc. -/
theorem c1_counterexample :
    (janus_lua_method_pushevent 4 5 true true true false 0 oneSession).status = 1 ∧
    ¬ (janus_lua_method_pushevent 4 5 true true true false 0 oneSession).status < 0 ∧
    (janus_lua_method_closepc 1 5 false oneSession).status = 1 ∧
    ¬ (janus_lua_method_closepc 1 5 false oneSession).status < 0 := by
  decide

/-- C1 amended: when the deferred-execution worker fails to launch, pushEvent
with a jsep payload and closePc report the failure to the script with the
nonzero (positive) status 1, not a negative one, and all resources of the
deferred task (event, jsep, transaction copy, task record, session
reference) are released synchronously by the caller, leaving the registry
state unchanged; when the worker launches, both return 0. -/
theorem c1_launch_failure_reports_and_releases (st : Plugin) (id : Nat) (s : Session)
    (hlk : alookup st.heap id = some s) (hdes : s.destroyed = false) (href : 1 ≤ s.ref)
    (pushRes : Int) :
    janus_lua_method_pushevent 4 id true true true false pushRes st =
      { status := 1, st := st, eventReleased := true, jsepReleased := true,
        transactionFreed := true, asevFreed := true, spawned := false } ∧
    janus_lua_method_closepc 1 id false st =
      { status := 1, st := st, eventReleased := false, jsepReleased := false,
        transactionFreed := false, asevFreed := true, spawned := false } ∧
    (janus_lua_method_pushevent 4 id true true true true pushRes st).status = 0 ∧
    (janus_lua_method_closepc 1 id true st).status = 0 := by
  have hres : resolveSession id st = some s := by
    simp [resolveSession, hlk, hdes]
  have hst : refdec id (refinc id st) = st := refdec_refinc_at hlk href
  refine ⟨?_, ?_, ?_, ?_⟩
  · simp [janus_lua_method_pushevent, hres, hst]
  · simp [janus_lua_method_closepc, hres, hst]
  · simp [janus_lua_method_pushevent, hres]
  · simp [janus_lua_method_closepc, hres]

theorem c1_launch_failure_reports_and_releases_witness :
    (janus_lua_method_pushevent 4 5 true true true false 0 oneSession).st = oneSession ∧
    (janus_lua_method_pushevent 4 5 true true true false 0 oneSession).eventReleased = true ∧
    (janus_lua_method_closepc 1 5 false oneSession).st = oneSession ∧
    (janus_lua_method_pushevent 4 5 true true true true 0 oneSession).status = 0 := by
  have h := c1_launch_failure_reports_and_releases oneSession 5 (freshSession 5)
    (by decide) (by decide) (by decide) 0
  refine ⟨by rw [h.1], by rw [h.1], by rw [h.2.1], h.2.2.1⟩

/-- C10: for an existing, non-destroyed session, configureMedium returns 0
even when the medium is unrecognized (in which case no session state changes
at all); a direction other than "in" (case-insensitively) sets the send flag
of the medium, for each of audio, video and data; the status is 0 for every
medium/direction argument; and an unknown session id yields -1 with no state
change. -/
theorem c10_configuremedium_permissive (st : Plugin) (id : Nat) (s : Session)
    (hlk : alookup st.heap id = some s) (hdes : s.destroyed = false) (href : 1 ≤ s.ref) :
    (∀ m d e, strcaseEq m "audio" = false → strcaseEq m "video" = false →
        strcaseEq m "data" = false →
        janus_lua_method_configuremedium 4 id (some m) (some d) e st = (0, st)) ∧
    (∀ m d e, strcaseEq m "audio" = true → strcaseEq d "in" = false →
        janus_lua_method_configuremedium 4 id (some m) (some d) e st =
          (0, updSession id (fun t => { t with send_audio := e }) st)) ∧
    (∀ m d e, strcaseEq m "video" = true → strcaseEq d "in" = false →
        janus_lua_method_configuremedium 4 id (some m) (some d) e st =
          (0, updSession id (fun t => { t with send_video := e }) st)) ∧
    (∀ m d e, strcaseEq m "data" = true → strcaseEq d "in" = false →
        janus_lua_method_configuremedium 4 id (some m) (some d) e st =
          (0, updSession id (fun t => { t with send_data := e }) st)) ∧
    (∀ m d e, (janus_lua_method_configuremedium 4 id m d e st).1 = 0) ∧
    (∀ j m d e, alookup st.heap j = none →
        janus_lua_method_configuremedium 4 j m d e st = (-1, st)) := by
  refine ⟨?_, ?_, ?_, ?_, ?_, ?_⟩
  · intro m d e h1 h2 h3
    simp [janus_lua_method_configuremedium, hlk, hdes, h1, h2, h3,
      refdec_refinc_at hlk href]
  · intro m d e ha hdir
    have hupd := refdec_upd_refinc (fun t => { t with send_audio := e }) hlk href
      (fun t r => rfl)
    simp [janus_lua_method_configuremedium, hlk, hdes, ha, hdir, hupd]
  · intro m d e hv hdir
    have haudio : strcaseEq m "audio" = false :=
      strcaseEq_trans_ne hv (by decide)
    have hupd := refdec_upd_refinc (fun t => { t with send_video := e }) hlk href
      (fun t r => rfl)
    simp [janus_lua_method_configuremedium, hlk, hdes, haudio, hv, hdir, hupd]
  · intro m d e hd hdir
    have haudio : strcaseEq m "audio" = false :=
      strcaseEq_trans_ne hd (by decide)
    have hvideo : strcaseEq m "video" = false :=
      strcaseEq_trans_ne hd (by decide)
    have hupd := refdec_upd_refinc (fun t => { t with send_data := e }) hlk href
      (fun t r => rfl)
    simp [janus_lua_method_configuremedium, hlk, hdes, haudio, hvideo, hd, hdir, hupd]
  · intro m d e
    simp [janus_lua_method_configuremedium, hlk, hdes]
  · intro j m d e hnone
    simp [janus_lua_method_configuremedium, hnone]

theorem c10_configuremedium_permissive_witness :
    janus_lua_method_configuremedium 4 5 (some "screen") (some "sideways") true
        oneSession = (0, oneSession) ∧
    janus_lua_method_configuremedium 4 5 (some "AUDIO") (some "sendonly") true
        oneSession =
      (0, updSession 5 (fun t => { t with send_audio := true }) oneSession) ∧
    janus_lua_method_configuremedium 4 5 (some "VIDEO") (some "out") true oneSession =
      (0, updSession 5 (fun t => { t with send_video := true }) oneSession) ∧
    janus_lua_method_configuremedium 4 5 (some "Data") (some "ouch") true oneSession =
      (0, updSession 5 (fun t => { t with send_data := true }) oneSession) ∧
    (janus_lua_method_configuremedium 4 5 (some "audio") none false oneSession).1 = 0 ∧
    janus_lua_method_configuremedium 4 77 (some "audio") (some "in") true oneSession =
      (-1, oneSession) := by
  have h := c10_configuremedium_permissive oneSession 5 (freshSession 5)
    (by decide) (by decide) (by decide)
  exact ⟨h.1 "screen" "sideways" true (by decide) (by decide) (by decide),
    h.2.1 "AUDIO" "sendonly" true (by decide) (by decide),
    h.2.2.1 "VIDEO" "out" true (by decide) (by decide),
    h.2.2.2.1 "Data" "ouch" true (by decide) (by decide),
    h.2.2.2.2.1 (some "audio") none false,
    h.2.2.2.2.2 77 (some "audio") (some "in") true (by decide)⟩

theorem startRecLoop_rollback (sess : Recorders) (specs : List RecSpec) (cnt : Nat)
    (arc vrc drc : Option Nat) (opened : List Nat)
    (h : (startRecLoop sess specs cnt arc vrc drc opened).status ≠ 0) :
    (startRecLoop sess specs cnt arc vrc drc opened).recs = sess := by
  induction specs generalizing cnt arc vrc drc opened with
  | nil => simp [startRecLoop] at h
  | cons sp rest ih =>
    unfold startRecLoop at h ⊢
    split_ifs at h ⊢ <;> first | rfl | exact ih _ _ _ _ _ h

theorem startRecLoop_fails (sess : Recorders) (specs : List RecSpec) (cnt : Nat)
    (arc vrc drc : Option Nat) (opened : List Nat)
    (hvalid : ∀ sp ∈ specs, sp.createOk = true)
    (hcond : (∃ sp ∈ specs, ∃ m, mediumOf sp.rtype = some m ∧
        ((localSlot m arc vrc drc).isSome = true ∨ (sessSlot m sess).isSome = true)) ∨
      ¬ (specs.filterMap (fun sp => mediumOf sp.rtype)).Nodup) :
    (startRecLoop sess specs cnt arc vrc drc opened).status = -1 := by
  induction specs generalizing cnt arc vrc drc opened with
  | nil =>
    rcases hcond with ⟨sp, hsp, _⟩ | hnd
    · exact absurd hsp (List.not_mem_nil sp)
    · exact absurd List.nodup_nil hnd
  | cons sp rest ih =>
    have hok : sp.createOk = true := (hvalid sp (List.mem_cons_self _ _))
    have hvalid2 : ∀ q ∈ rest, q.createOk = true :=
      fun q hq => hvalid q (List.mem_cons_of_mem _ hq)
    unfold startRecLoop
    rw [if_neg (by simp [hok])]
    by_cases ha : strcaseEq sp.rtype "audio" = true
    · have hm : mediumOf sp.rtype = some Medium.maudio := by simp [mediumOf, ha]
      rw [if_pos ha]
      by_cases hbusy : arc.isSome = true ∨ sess.arc.isSome = true
      · rw [if_pos hbusy]
      · rw [if_neg hbusy]
        push_neg at hbusy
        refine ih (cnt + 1) (some cnt) vrc drc (opened ++ [cnt]) hvalid2 ?_
        rcases hcond with ⟨q, hq, m, hqm, hqb⟩ | hnd
        · rcases List.mem_cons.mp hq with rfl | hqrest
          · rw [hm] at hqm
            cases Option.some.inj hqm
            simp only [localSlot, sessSlot] at hqb
            rcases hqb with hb | hb
            · exact absurd hb (by simp [hbusy.1])
            · exact absurd hb (by simp [hbusy.2])
          · refine Or.inl ⟨q, hqrest, m, hqm, ?_⟩
            cases m with
            | maudio => exact Or.inl (by simp [localSlot])
            | mvideo => simpa [localSlot] using hqb
            | mdata => simpa [localSlot] using hqb
        · rw [List.filterMap_cons, hm] at hnd
          rw [List.nodup_cons] at hnd
          push_neg at hnd
          by_cases hmem : Medium.maudio ∈ rest.filterMap (fun q => mediumOf q.rtype)
          · obtain ⟨q, hq, hqm⟩ := List.mem_filterMap.mp hmem
            exact Or.inl ⟨q, hq, Medium.maudio, hqm, Or.inl (by simp [localSlot])⟩
          · exact Or.inr (fun hnodup => (hnd hmem) hnodup)
    · rw [if_neg ha]
      by_cases hv : strcaseEq sp.rtype "video" = true
      · have hm : mediumOf sp.rtype = some Medium.mvideo := by simp [mediumOf, ha, hv]
        rw [if_pos hv]
        by_cases hbusy : vrc.isSome = true ∨ sess.vrc.isSome = true
        · rw [if_pos hbusy]
        · rw [if_neg hbusy]
          push_neg at hbusy
          refine ih (cnt + 1) arc (some cnt) drc (opened ++ [cnt]) hvalid2 ?_
          rcases hcond with ⟨q, hq, m, hqm, hqb⟩ | hnd
          · rcases List.mem_cons.mp hq with rfl | hqrest
            · rw [hm] at hqm
              cases Option.some.inj hqm
              simp only [localSlot, sessSlot] at hqb
              rcases hqb with hb | hb
              · exact absurd hb (by simp [hbusy.1])
              · exact absurd hb (by simp [hbusy.2])
            · refine Or.inl ⟨q, hqrest, m, hqm, ?_⟩
              cases m with
              | mvideo => exact Or.inl (by simp [localSlot])
              | maudio => simpa [localSlot] using hqb
              | mdata => simpa [localSlot] using hqb
          · rw [List.filterMap_cons, hm] at hnd
            rw [List.nodup_cons] at hnd
            push_neg at hnd
            by_cases hmem : Medium.mvideo ∈ rest.filterMap (fun q => mediumOf q.rtype)
            · obtain ⟨q, hq, hqm⟩ := List.mem_filterMap.mp hmem
              exact Or.inl ⟨q, hq, Medium.mvideo, hqm, Or.inl (by simp [localSlot])⟩
            · exact Or.inr (fun hnodup => (hnd hmem) hnodup)
      · rw [if_neg hv]
        by_cases hd : strcaseEq sp.rtype "data" = true
        · have hm : mediumOf sp.rtype = some Medium.mdata := by simp [mediumOf, ha, hv, hd]
          rw [if_pos hd]
          by_cases hbusy : drc.isSome = true ∨ sess.drc.isSome = true
          · rw [if_pos hbusy]
          · rw [if_neg hbusy]
            push_neg at hbusy
            refine ih (cnt + 1) arc vrc (some cnt) (opened ++ [cnt]) hvalid2 ?_
            rcases hcond with ⟨q, hq, m, hqm, hqb⟩ | hnd
            · rcases List.mem_cons.mp hq with rfl | hqrest
              · rw [hm] at hqm
                cases Option.some.inj hqm
                simp only [localSlot, sessSlot] at hqb
                rcases hqb with hb | hb
                · exact absurd hb (by simp [hbusy.1])
                · exact absurd hb (by simp [hbusy.2])
              · refine Or.inl ⟨q, hqrest, m, hqm, ?_⟩
                cases m with
                | mdata => exact Or.inl (by simp [localSlot])
                | maudio => simpa [localSlot] using hqb
                | mvideo => simpa [localSlot] using hqb
            · rw [List.filterMap_cons, hm] at hnd
              rw [List.nodup_cons] at hnd
              push_neg at hnd
              by_cases hmem : Medium.mdata ∈ rest.filterMap (fun q => mediumOf q.rtype)
              · obtain ⟨q, hq, hqm⟩ := List.mem_filterMap.mp hmem
                exact Or.inl ⟨q, hq, Medium.mdata, hqm, Or.inl (by simp [localSlot])⟩
              · exact Or.inr (fun hnodup => (hnd hmem) hnodup)
        · rw [if_neg hd]
          have hm : mediumOf sp.rtype = none := by simp [mediumOf, ha, hv, hd]
          refine ih (cnt + 1) arc vrc drc (opened ++ [cnt]) hvalid2 ?_
          rcases hcond with ⟨q, hq, m, hqm, hqb⟩ | hnd
          · rcases List.mem_cons.mp hq with rfl | hqrest
            · rw [hm] at hqm
              exact absurd hqm (by simp)
            · exact Or.inl ⟨q, hqrest, m, hqm, hqb⟩
          · rw [List.filterMap_cons, hm] at hnd
            exact Or.inr hnd

theorem startRecLoop_freed (sess : Recorders) (specs : List RecSpec) (cnt : Nat)
    (arc vrc drc : Option Nat) (opened : List Nat)
    (hvalid : ∀ sp ∈ specs, sp.createOk = true ∧ (mediumOf sp.rtype).isSome = true)
    (hinv : ∀ x ∈ opened, x ∈ optList arc ++ optList vrc ++ optList drc)
    (hfail : (startRecLoop sess specs cnt arc vrc drc opened).status ≠ 0) :
    ∀ x ∈ (startRecLoop sess specs cnt arc vrc drc opened).opened.dropLast,
      x ∈ (startRecLoop sess specs cnt arc vrc drc opened).freed := by
  induction specs generalizing cnt arc vrc drc opened with
  | nil => simp [startRecLoop] at hfail
  | cons sp rest ih =>
    obtain ⟨hok, hmed⟩ := hvalid sp (List.mem_cons_self _ _)
    have hvalid2 : ∀ q ∈ rest, q.createOk = true ∧ (mediumOf q.rtype).isSome = true :=
      fun q hq => hvalid q (List.mem_cons_of_mem _ hq)
    unfold startRecLoop at hfail ⊢
    rw [if_neg (by simp [hok])] at hfail ⊢
    by_cases ha : strcaseEq sp.rtype "audio" = true
    · rw [if_pos ha] at hfail ⊢
      by_cases hbusy : arc.isSome = true ∨ sess.arc.isSome = true
      · rw [if_pos hbusy] at hfail ⊢
        intro x hx
        simp only [List.dropLast_concat] at hx
        exact hinv x hx
      · rw [if_neg hbusy] at hfail ⊢
        push_neg at hbusy
        refine ih (cnt + 1) (some cnt) vrc drc (opened ++ [cnt]) hvalid2 ?_ hfail
        intro x hx
        rcases List.mem_append.mp hx with hx1 | hx2
        · have hold := hinv x hx1
          have harc : arc = none := Option.not_isSome_iff_eq_none.mp (by simp [hbusy.1])
          rw [harc] at hold
          simp only [optList, List.nil_append] at hold
          simp only [optList, List.cons_append]
          exact List.mem_cons_of_mem _ hold
        · simp only [List.mem_singleton] at hx2
          subst hx2
          simp [optList]
    · rw [if_neg ha] at hfail ⊢
      by_cases hv : strcaseEq sp.rtype "video" = true
      · rw [if_pos hv] at hfail ⊢
        by_cases hbusy : vrc.isSome = true ∨ sess.vrc.isSome = true
        · rw [if_pos hbusy] at hfail ⊢
          intro x hx
          simp only [List.dropLast_concat] at hx
          exact hinv x hx
        · rw [if_neg hbusy] at hfail ⊢
          push_neg at hbusy
          refine ih (cnt + 1) arc (some cnt) drc (opened ++ [cnt]) hvalid2 ?_ hfail
          intro x hx
          rcases List.mem_append.mp hx with hx1 | hx2
          · have hold := hinv x hx1
            have hvrc : vrc = none := Option.not_isSome_iff_eq_none.mp (by simp [hbusy.1])
            rw [hvrc] at hold
            simp only [optList] at hold ⊢
            rcases List.mem_append.mp hold with h1 | h2
            · rcases List.mem_append.mp h1 with h3 | h4
              · exact List.mem_append.mpr (Or.inl (List.mem_append.mpr (Or.inl h3)))
              · exact absurd h4 (List.not_mem_nil x)
            · exact List.mem_append.mpr (Or.inr h2)
          · simp only [List.mem_singleton] at hx2
            subst hx2
            simp [optList]
      · rw [if_neg hv] at hfail ⊢
        by_cases hd : strcaseEq sp.rtype "data" = true
        · rw [if_pos hd] at hfail ⊢
          by_cases hbusy : drc.isSome = true ∨ sess.drc.isSome = true
          · rw [if_pos hbusy] at hfail ⊢
            intro x hx
            simp only [List.dropLast_concat] at hx
            exact hinv x hx
          · rw [if_neg hbusy] at hfail ⊢
            push_neg at hbusy
            refine ih (cnt + 1) arc vrc (some cnt) (opened ++ [cnt]) hvalid2 ?_ hfail
            intro x hx
            rcases List.mem_append.mp hx with hx1 | hx2
            · have hold := hinv x hx1
              have hdrc : drc = none := Option.not_isSome_iff_eq_none.mp (by simp [hbusy.1])
              rw [hdrc] at hold
              simp only [optList] at hold ⊢
              rcases List.mem_append.mp hold with h1 | h2
              · exact List.mem_append.mpr (Or.inl h1)
              · exact absurd h2 (List.not_mem_nil x)
            · simp only [List.mem_singleton] at hx2
              subst hx2
              simp [optList]
        · exfalso
          rw [show (mediumOf sp.rtype) = none from by simp [mediumOf, ha, hv, hd]] at hmed
          simp at hmed

/-- C2: a startRecording call on an existing session whose specs all carry a
valid medium string fails with -1 whenever some requested medium is already
being recorded or is requested twice in the same call; and any failing call
leaves the session's recorder slots untouched (so the already-open recorder
is unaffected) while every recorder opened in an earlier iteration of the
same call is handed to janus_recorder_free. -/
theorem c2_startrecording_all_or_nothing (specs : List RecSpec) (sess : Recorders)
    (hvalid : ∀ sp ∈ specs, sp.createOk = true ∧ (mediumOf sp.rtype).isSome = true) :
    ((∃ sp ∈ specs, specBusy sess sp = true) ∨
        ¬ (specs.filterMap (fun sp => mediumOf sp.rtype)).Nodup →
      (janus_lua_method_startrecording specs sess).status = -1) ∧
    ((janus_lua_method_startrecording specs sess).status ≠ 0 →
      (janus_lua_method_startrecording specs sess).recs = sess ∧
      ∀ x ∈ (janus_lua_method_startrecording specs sess).opened.dropLast,
        x ∈ (janus_lua_method_startrecording specs sess).freed) := by
  constructor
  · intro hcond
    refine startRecLoop_fails sess specs 0 none none none []
      (fun sp hsp => (hvalid sp hsp).1) ?_
    rcases hcond with ⟨sp, hsp, hb⟩ | hnd
    · left
      refine ⟨sp, hsp, ?_⟩
      unfold specBusy at hb
      rcases hm : mediumOf sp.rtype with _ | m
      · rw [hm] at hb
        simp at hb
      · rw [hm] at hb
        exact ⟨m, rfl, Or.inr hb⟩
    · exact Or.inr hnd
  · intro hfail
    exact ⟨startRecLoop_rollback sess specs 0 none none none [] hfail,
      startRecLoop_freed sess specs 0 none none none [] hvalid
        (fun x hx => absurd hx (List.not_mem_nil x)) hfail⟩

theorem c2_startrecording_all_or_nothing_witness :
    (janus_lua_method_startrecording [{ rtype := "audio", createOk := true }]
        { arc := some 7, vrc := none, drc := none }).status = -1 ∧
    (janus_lua_method_startrecording [{ rtype := "audio", createOk := true }]
        { arc := some 7, vrc := none, drc := none }).recs =
      { arc := some 7, vrc := none, drc := none } := by
  have h := c2_startrecording_all_or_nothing [{ rtype := "audio", createOk := true }]
    { arc := some 7, vrc := none, drc := none } (by decide)
  have h1 := h.1 (Or.inl ⟨{ rtype := "audio", createOk := true }, by decide, by decide⟩)
  exact ⟨h1, (h.2 (by rw [h1]; decide)).1⟩

theorem addrecipient_spec (st : Plugin) (id rid : Nat) (sA sB : Session) (hne : id ≠ rid)
    (hA : alookup st.heap id = some sA) (hdA : sA.destroyed = false) (hrA : 1 ≤ sA.ref)
    (hB : alookup st.heap rid = some sB) (hdB : sB.destroyed = false) (hrB : 1 ≤ sB.ref)
    (hnin : rid ∉ sA.recipients) :
    janus_lua_method_addrecipient id rid st =
      (0, { st with
            heap := aupdate id
              (fun t => { t with ref := t.ref + 1, recipients := t.recipients ++ [rid] })
              (aupdate rid (fun t => { t with ref := t.ref + 1 }) st.heap) }) := by
  have hB1 : alookup (refinc id st).heap rid = some sB := by
    show alookup (aupdate id _ st.heap) rid = some sB
    rw [alookup_aupdate_ne _ _ (Ne.symm hne), hB]
  have hA2 : alookup (refinc rid (refinc id st)).heap id =
      some { sA with ref := sA.ref + 1 } := by
    show alookup (aupdate rid _ (aupdate id _ st.heap)) id = _
    rw [alookup_aupdate_ne _ _ hne, alookup_aupdate_self, hA]
    rfl
  have hred : janus_lua_method_addrecipient id rid st =
      (0, refdec rid (refdec id (updSession id
        (fun t => { t with recipients := t.recipients ++ [rid] })
        (refinc rid (refinc id (refinc rid (refinc id st))))))) := by
    simp only [janus_lua_method_addrecipient, hA, hdA, hB1, hdB, hA2, Bool.false_eq_true,
      if_false, hnin, ite_false]
  have hlkX : alookup (updSession id
      (fun t => { t with recipients := t.recipients ++ [rid] })
      (refinc rid (refinc id (refinc rid (refinc id st))))).heap id =
      some { sA with ref := sA.ref + 1 + 1, recipients := sA.recipients ++ [rid] } := by
    show alookup (aupdate id _ (aupdate rid _ (aupdate id _ (aupdate rid _
      (aupdate id _ st.heap))))) id = _
    rw [alookup_aupdate_self, alookup_aupdate_ne _ _ hne, alookup_aupdate_self,
      alookup_aupdate_ne _ _ hne, alookup_aupdate_self, hA]
    rfl
  have hY : refdec id (updSession id
      (fun t => { t with recipients := t.recipients ++ [rid] })
      (refinc rid (refinc id (refinc rid (refinc id st))))) =
      Plugin.mk
        (aupdate id (fun t => { t with ref := t.ref - 1 })
          ((updSession id (fun t => { t with recipients := t.recipients ++ [rid] })
            (refinc rid (refinc id (refinc rid (refinc id st))))).heap))
        st.handles := by
    rw [refdec_of_lookup_ge2 hlkX (by show 2 ≤ sA.ref + 1 + 1; omega)]
    rfl
  rw [hred, hY]
  have hlkY : alookup (aupdate id (fun t : Session => { t with ref := t.ref - 1 })
      ((updSession id (fun t => { t with recipients := t.recipients ++ [rid] })
        (refinc rid (refinc id (refinc rid (refinc id st))))).heap)) rid =
      some { sB with ref := sB.ref + 1 + 1 } := by
    show alookup (aupdate id _ (aupdate id _ (aupdate rid _ (aupdate id _
      (aupdate rid _ (aupdate id _ st.heap)))))) rid = _
    rw [alookup_aupdate_ne _ _ (Ne.symm hne), alookup_aupdate_ne _ _ (Ne.symm hne),
      alookup_aupdate_self, alookup_aupdate_ne _ _ (Ne.symm hne), alookup_aupdate_self,
      alookup_aupdate_ne _ _ (Ne.symm hne), hB]
    rfl
  have hZ : refdec rid (Plugin.mk
      (aupdate id (fun t => { t with ref := t.ref - 1 })
        ((updSession id (fun t => { t with recipients := t.recipients ++ [rid] })
          (refinc rid (refinc id (refinc rid (refinc id st))))).heap))
      st.handles) =
      Plugin.mk
        (aupdate rid (fun t => { t with ref := t.ref - 1 })
          (aupdate id (fun t => { t with ref := t.ref - 1 })
          (aupdate id (fun t => { t with recipients := t.recipients ++ [rid] })
          (aupdate rid (fun t => { t with ref := t.ref + 1 })
          (aupdate id (fun t => { t with ref := t.ref + 1 })
          (aupdate rid (fun t => { t with ref := t.ref + 1 })
          (aupdate id (fun t => { t with ref := t.ref + 1 }) st.heap)))))))
        st.handles := by
    rw [refdec_of_lookup_ge2 hlkY (by show 2 ≤ sB.ref + 1 + 1; omega)]
    rfl
  rw [hZ]
  have hheap : aupdate rid (fun t : Session => { t with ref := t.ref - 1 })
      (aupdate id (fun t => { t with ref := t.ref - 1 })
      (aupdate id (fun t => { t with recipients := t.recipients ++ [rid] })
      (aupdate rid (fun t => { t with ref := t.ref + 1 })
      (aupdate id (fun t => { t with ref := t.ref + 1 })
      (aupdate rid (fun t => { t with ref := t.ref + 1 })
      (aupdate id (fun t => { t with ref := t.ref + 1 }) st.heap)))))) =
      aupdate id
        (fun t => { t with ref := t.ref + 1, recipients := t.recipients ++ [rid] })
        (aupdate rid (fun t => { t with ref := t.ref + 1 }) st.heap) := by
    rw [aupdate_aupdate_self]
    rw [aupdate_comm _ _ _ hne]
    rw [aupdate_aupdate_self]
    rw [aupdate_aupdate_self]
    rw [aupdate_comm _ _ _ hne]
    rw [aupdate_aupdate_self]
    rw [aupdate_aupdate_self]
    rw [← aupdate_comm _ _ _ hne]
    refine congrArg (fun H => aupdate id _ H) ?_
    exact aupdate_congr _ _ (fun a => rfl)
  show (0, Plugin.mk _ st.handles) = _
  rw [hheap]

theorem removerecipient_spec (st : Plugin) (id rid : Nat) (sA sB : Session)
    (hne : id ≠ rid)
    (hA : alookup st.heap id = some sA) (hrA : 2 ≤ sA.ref)
    (hB : alookup st.heap rid = some sB) (hrB : 2 ≤ sB.ref)
    (hin : rid ∈ sA.recipients) :
    janus_lua_method_removerecipient id rid st =
      (0, Plugin.mk
        (aupdate id
          (fun t => { t with ref := t.ref - 1, recipients := t.recipients.erase rid })
          (aupdate rid (fun t => { t with ref := t.ref - 1 }) st.heap))
        st.handles) := by
  have hB1 : alookup (refinc id st).heap rid = some sB := by
    show alookup (aupdate id _ st.heap) rid = some sB
    rw [alookup_aupdate_ne _ _ (Ne.symm hne), hB]
  have hA2 : alookup (refinc rid (refinc id st)).heap id =
      some { sA with ref := sA.ref + 1 } := by
    show alookup (aupdate rid _ (aupdate id _ st.heap)) id = _
    rw [alookup_aupdate_ne _ _ hne, alookup_aupdate_self, hA]
    rfl
  have hred : janus_lua_method_removerecipient id rid st =
      (0, refdec rid (refdec id (refdec rid (refdec id (updSession id
        (fun t => { t with recipients := t.recipients.erase rid })
        (refinc rid (refinc id st))))))) := by
    simp only [janus_lua_method_removerecipient, hA, hB1, hA2, hin, ite_true, if_true]
  have hlkX : alookup (updSession id
      (fun t => { t with recipients := t.recipients.erase rid })
      (refinc rid (refinc id st))).heap id =
      some { sA with ref := sA.ref + 1, recipients := sA.recipients.erase rid } := by
    show alookup (aupdate id _ (aupdate rid _ (aupdate id _ st.heap))) id = _
    rw [alookup_aupdate_self, alookup_aupdate_ne _ _ hne, alookup_aupdate_self, hA]
    rfl
  have hY : refdec id (updSession id
      (fun t => { t with recipients := t.recipients.erase rid })
      (refinc rid (refinc id st))) =
      Plugin.mk
        (aupdate id (fun t => { t with ref := t.ref - 1 })
          (aupdate id (fun t => { t with recipients := t.recipients.erase rid })
          (aupdate rid (fun t => { t with ref := t.ref + 1 })
          (aupdate id (fun t => { t with ref := t.ref + 1 }) st.heap))))
        st.handles := by
    rw [refdec_of_lookup_ge2 hlkX (by show 2 ≤ sA.ref + 1; omega)]
    rfl
  have hlkY : alookup (aupdate id (fun t : Session => { t with ref := t.ref - 1 })
      (aupdate id (fun t => { t with recipients := t.recipients.erase rid })
      (aupdate rid (fun t => { t with ref := t.ref + 1 })
      (aupdate id (fun t => { t with ref := t.ref + 1 }) st.heap)))) rid =
      some { sB with ref := sB.ref + 1 } := by
    rw [alookup_aupdate_ne _ _ (Ne.symm hne), alookup_aupdate_ne _ _ (Ne.symm hne),
      alookup_aupdate_self, alookup_aupdate_ne _ _ (Ne.symm hne), hB]
    rfl
  have hZ : refdec rid (Plugin.mk
      (aupdate id (fun t => { t with ref := t.ref - 1 })
        (aupdate id (fun t => { t with recipients := t.recipients.erase rid })
        (aupdate rid (fun t => { t with ref := t.ref + 1 })
        (aupdate id (fun t => { t with ref := t.ref + 1 }) st.heap))))
      st.handles) =
      Plugin.mk
        (aupdate rid (fun t => { t with ref := t.ref - 1 })
          (aupdate id (fun t => { t with ref := t.ref - 1 })
          (aupdate id (fun t => { t with recipients := t.recipients.erase rid })
          (aupdate rid (fun t => { t with ref := t.ref + 1 })
          (aupdate id (fun t => { t with ref := t.ref + 1 }) st.heap)))))
        st.handles := by
    rw [refdec_of_lookup_ge2 hlkY (by show 2 ≤ sB.ref + 1; omega)]
  have hlkZ : alookup (aupdate rid (fun t : Session => { t with ref := t.ref - 1 })
      (aupdate id (fun t => { t with ref := t.ref - 1 })
      (aupdate id (fun t => { t with recipients := t.recipients.erase rid })
      (aupdate rid (fun t => { t with ref := t.ref + 1 })
      (aupdate id (fun t => { t with ref := t.ref + 1 }) st.heap))))) id =
      some { sA with ref := sA.ref + 1 - 1, recipients := sA.recipients.erase rid } := by
    rw [alookup_aupdate_ne _ _ hne, alookup_aupdate_self, alookup_aupdate_self,
      alookup_aupdate_ne _ _ hne, alookup_aupdate_self, hA]
    rfl
  have hW : refdec id (Plugin.mk
      (aupdate rid (fun t => { t with ref := t.ref - 1 })
        (aupdate id (fun t => { t with ref := t.ref - 1 })
        (aupdate id (fun t => { t with recipients := t.recipients.erase rid })
        (aupdate rid (fun t => { t with ref := t.ref + 1 })
        (aupdate id (fun t => { t with ref := t.ref + 1 }) st.heap)))))
      st.handles) =
      Plugin.mk
        (aupdate id (fun t => { t with ref := t.ref - 1 })
          (aupdate rid (fun t => { t with ref := t.ref - 1 })
          (aupdate id (fun t => { t with ref := t.ref - 1 })
          (aupdate id (fun t => { t with recipients := t.recipients.erase rid })
          (aupdate rid (fun t => { t with ref := t.ref + 1 })
          (aupdate id (fun t => { t with ref := t.ref + 1 }) st.heap))))))
        st.handles := by
    rw [refdec_of_lookup_ge2 hlkZ (by show 2 ≤ sA.ref + 1 - 1; omega)]
  have hlkW : alookup (aupdate id (fun t : Session => { t with ref := t.ref - 1 })
      (aupdate rid (fun t => { t with ref := t.ref - 1 })
      (aupdate id (fun t => { t with ref := t.ref - 1 })
      (aupdate id (fun t => { t with recipients := t.recipients.erase rid })
      (aupdate rid (fun t => { t with ref := t.ref + 1 })
      (aupdate id (fun t => { t with ref := t.ref + 1 }) st.heap)))))) rid =
      some { sB with ref := sB.ref + 1 - 1 } := by
    rw [alookup_aupdate_ne _ _ (Ne.symm hne), alookup_aupdate_self,
      alookup_aupdate_ne _ _ (Ne.symm hne), alookup_aupdate_ne _ _ (Ne.symm hne),
      alookup_aupdate_self, alookup_aupdate_ne _ _ (Ne.symm hne), hB]
    rfl
  have hF : refdec rid (Plugin.mk
      (aupdate id (fun t => { t with ref := t.ref - 1 })
        (aupdate rid (fun t => { t with ref := t.ref - 1 })
        (aupdate id (fun t => { t with ref := t.ref - 1 })
        (aupdate id (fun t => { t with recipients := t.recipients.erase rid })
        (aupdate rid (fun t => { t with ref := t.ref + 1 })
        (aupdate id (fun t => { t with ref := t.ref + 1 }) st.heap))))))
      st.handles) =
      Plugin.mk
        (aupdate rid (fun t => { t with ref := t.ref - 1 })
          (aupdate id (fun t => { t with ref := t.ref - 1 })
          (aupdate rid (fun t => { t with ref := t.ref - 1 })
          (aupdate id (fun t => { t with ref := t.ref - 1 })
          (aupdate id (fun t => { t with recipients := t.recipients.erase rid })
          (aupdate rid (fun t => { t with ref := t.ref + 1 })
          (aupdate id (fun t => { t with ref := t.ref + 1 }) st.heap)))))))
        st.handles := by
    rw [refdec_of_lookup_ge2 hlkW (by show 2 ≤ sB.ref + 1 - 1; omega)]
  rw [hred, hY, hZ, hW, hF]
  have hheap : aupdate rid (fun t : Session => { t with ref := t.ref - 1 })
      (aupdate id (fun t => { t with ref := t.ref - 1 })
      (aupdate rid (fun t => { t with ref := t.ref - 1 })
      (aupdate id (fun t => { t with ref := t.ref - 1 })
      (aupdate id (fun t => { t with recipients := t.recipients.erase rid })
      (aupdate rid (fun t => { t with ref := t.ref + 1 })
      (aupdate id (fun t => { t with ref := t.ref + 1 }) st.heap)))))) =
      aupdate id
        (fun t => { t with ref := t.ref - 1, recipients := t.recipients.erase rid })
        (aupdate rid (fun t => { t with ref := t.ref - 1 }) st.heap) := by
    rw [aupdate_comm _ _ _ hne]
    rw [aupdate_aupdate_self]
    rw [aupdate_aupdate_self]
    rw [aupdate_aupdate_self]
    rw [aupdate_comm _ _ _ hne]
    rw [aupdate_aupdate_self]
    rw [aupdate_aupdate_self]
    rw [← aupdate_comm _ _ _ hne]
    rfl
  rw [hheap]

theorem aremove_aupdate_comm {α : Type} (l : List (Nat × α)) (f : α → α) {i j : Nat}
    (h : i ≠ j) : aremove i (aupdate j f l) = aupdate j f (aremove i l) := by
  induction l with
  | nil => rfl
  | cons p rest ih =>
    obtain ⟨k, v⟩ := p
    by_cases hk : k = j
    · subst hk
      simp [aremove, aupdate, List.filter_cons, Ne.symm h, h]
    · by_cases hk2 : k = i
      · simpa [aremove, aupdate, List.filter_cons, hk, hk2, h] using ih
      · simpa [aremove, aupdate, List.filter_cons, hk, hk2, h] using ih

theorem refdec_refinc_comm {i j : Nat} (st : Plugin) (h : i ≠ j) :
    refdec i (refinc j st) = refinc j (refdec i st) := by
  cases hlk : alookup st.heap i with
  | none =>
    have hlk2 : alookup (refinc j st).heap i = none := by
      show alookup (aupdate j _ st.heap) i = none
      rw [alookup_aupdate_ne _ _ h, hlk]
    rw [refdec_of_lookup_none hlk2, refdec_of_lookup_none hlk]
  | some s =>
    have hlk2 : alookup (refinc j st).heap i = some s := by
      show alookup (aupdate j _ st.heap) i = some s
      rw [alookup_aupdate_ne _ _ h, hlk]
    by_cases hr : s.ref ≤ 1
    · have e1 : refdec i (refinc j st) =
          { refinc j st with heap := aremove i (refinc j st).heap } := by
        rw [refdec, hlk2, refdecAux, if_pos hr]
      have e2 : refdec i st = { st with heap := aremove i st.heap } := by
        rw [refdec, hlk, refdecAux, if_pos hr]
      rw [e1, e2]
      show Plugin.mk (aremove i (aupdate j _ st.heap)) st.handles =
        Plugin.mk (aupdate j _ (aremove i st.heap)) st.handles
      rw [aremove_aupdate_comm _ _ h]
    · have e1 : refdec i (refinc j st) =
          { refinc j st with
            heap := aupdate i (fun t => { t with ref := t.ref - 1 }) (refinc j st).heap } := by
        rw [refdec, hlk2, refdecAux, if_neg hr]
      have e2 : refdec i st =
          { st with heap := aupdate i (fun t => { t with ref := t.ref - 1 }) st.heap } := by
        rw [refdec, hlk, refdecAux, if_neg hr]
      rw [e1, e2]
      show Plugin.mk (aupdate i _ (aupdate j _ st.heap)) st.handles =
        Plugin.mk (aupdate j _ (aupdate i _ st.heap)) st.handles
      rw [aupdate_comm _ _ _ h]

theorem recipientsOf_refinc (j i : Nat) (st : Plugin) :
    recipientsOf i (refinc j st) = recipientsOf i st := by
  unfold recipientsOf
  by_cases h : i = j
  · subst h
    have : alookup (refinc i st).heap i =
        (alookup st.heap i).map (fun s => { s with ref := s.ref + 1 }) := by
      show alookup (aupdate i _ st.heap) i = _
      rw [alookup_aupdate_self]
    rw [this]
    cases alookup st.heap i <;> rfl
  · have : alookup (refinc j st).heap i = alookup st.heap i := by
      show alookup (aupdate j _ st.heap) i = _
      rw [alookup_aupdate_ne _ _ h]
    rw [this]

theorem count_recipientsOf_refdec_le (j i rid : Nat) (st : Plugin) :
    ((recipientsOf i (refdec j st)).count rid) ≤ (recipientsOf i st).count rid := by
  rw [refdec]
  cases hlk : alookup st.heap j with
  | none => simp [refdecAux]
  | some s =>
    by_cases h : s.ref ≤ 1
    · rw [refdecAux, if_pos h]
      unfold recipientsOf
      by_cases hij : i = j
      · subst hij
        show ((match alookup (aremove i st.heap) i with
          | none => [] | some s => s.recipients).count rid) ≤ _
        rw [alookup_aremove_self]
        simp
      · show ((match alookup (aremove j st.heap) i with
          | none => [] | some s => s.recipients).count rid) ≤ _
        rw [alookup_aremove_ne _ hij]
    · rw [refdecAux, if_neg h]
      unfold recipientsOf
      by_cases hij : i = j
      · subst hij
        show ((match alookup (aupdate i _ st.heap) i with
          | none => [] | some s => s.recipients).count rid) ≤ _
        rw [alookup_aupdate_self]
        cases alookup st.heap i <;> simp
      · show ((match alookup (aupdate j _ st.heap) i with
          | none => [] | some s => s.recipients).count rid) ≤ _
        rw [alookup_aupdate_ne _ _ hij]

theorem alookup_refinc_recipients (j i : Nat) (st : Plugin) :
    (alookup (refinc j st).heap i).map Session.recipients =
      (alookup st.heap i).map Session.recipients := by
  by_cases h : i = j
  · subst h
    show (alookup (aupdate i _ st.heap) i).map _ = _
    rw [alookup_aupdate_self]
    cases alookup st.heap i <;> rfl
  · show (alookup (aupdate j _ st.heap) i).map _ = _
    rw [alookup_aupdate_ne _ _ h]

theorem addrecipient_count_le (st : Plugin) (id rid : Nat)
    (h : (recipientsOf id st).count rid ≤ 1) :
    (recipientsOf id (janus_lua_method_addrecipient id rid st).2).count rid ≤ 1 := by
  have hrd : ∀ st2 : Plugin, (recipientsOf id st2).count rid ≤ 1 →
      (recipientsOf id (refdec rid (refdec id st2))).count rid ≤ 1 :=
    fun st2 h2 => le_trans (count_recipientsOf_refdec_le rid id rid _)
      (le_trans (count_recipientsOf_refdec_le id id rid st2) h2)
  have hdec1 : (recipientsOf id (refdec id (refinc id st))).count rid ≤ 1 := by
    refine le_trans (count_recipientsOf_refdec_le id id rid _) ?_
    rw [recipientsOf_refinc]
    exact h
  have hinc : (recipientsOf id (refinc rid (refinc id st))).count rid ≤ 1 := by
    rw [recipientsOf_refinc, recipientsOf_refinc]
    exact h
  cases hA : alookup st.heap id with
  | none =>
    rw [show janus_lua_method_addrecipient id rid st = (-1, st) from by
      simp [janus_lua_method_addrecipient, hA]]
    exact h
  | some sA =>
    by_cases hdA : sA.destroyed = true
    · rw [show janus_lua_method_addrecipient id rid st = (-1, st) from by
        simp [janus_lua_method_addrecipient, hA, hdA]]
      exact h
    · cases hB : alookup (refinc id st).heap rid with
      | none =>
        rw [show janus_lua_method_addrecipient id rid st =
            (-1, refdec id (refinc id st)) from by
          simp [janus_lua_method_addrecipient, hA, hdA, hB]]
        exact hdec1
      | some sB =>
        by_cases hdB : sB.destroyed = true
        · rw [show janus_lua_method_addrecipient id rid st =
              (-1, refdec id (refinc id st)) from by
            simp [janus_lua_method_addrecipient, hA, hdA, hB, hdB]]
          exact hdec1
        · cases h2 : alookup (refinc rid (refinc id st)).heap id with
          | none =>
            rw [show janus_lua_method_addrecipient id rid st =
                (0, refdec rid (refdec id (refinc rid (refinc id st)))) from by
              simp [janus_lua_method_addrecipient, hA, hdA, hB, hdB, h2]]
            exact hrd _ hinc
          | some s2 =>
            by_cases hmem : rid ∈ s2.recipients
            · rw [show janus_lua_method_addrecipient id rid st =
                  (0, refdec rid (refdec id (refinc rid (refinc id st)))) from by
                simp [janus_lua_method_addrecipient, hA, hdA, hB, hdB, h2, hmem]]
              exact hrd _ hinc
            · rw [show janus_lua_method_addrecipient id rid st =
                  (0, refdec rid (refdec id (updSession id
                    (fun t => { t with recipients := t.recipients ++ [rid] })
                    (refinc rid (refinc id (refinc rid (refinc id st))))))) from by
                simp [janus_lua_method_addrecipient, hA, hdA, hB, hdB, h2, hmem]]
              refine hrd _ ?_
              have hmap : (alookup (refinc rid (refinc id (refinc rid
                  (refinc id st)))).heap id).map Session.recipients =
                  some s2.recipients := by
                rw [alookup_refinc_recipients, alookup_refinc_recipients, h2]
                rfl
              obtain ⟨sX, hsX, hsXrec⟩ := Option.map_eq_some'.mp hmap
              have hrec3 : recipientsOf id (updSession id
                  (fun t => { t with recipients := t.recipients ++ [rid] })
                  (refinc rid (refinc id (refinc rid (refinc id st))))) =
                  sX.recipients ++ [rid] := by
                unfold recipientsOf
                show (match alookup (aupdate id _ (refinc rid (refinc id (refinc rid
                  (refinc id st)))).heap) id with
                  | none => [] | some s => s.recipients) = _
                rw [alookup_aupdate_self, hsX]
                rfl
              rw [hrec3, hsXrec]
              have hcnt : s2.recipients.count rid = 0 := List.count_eq_zero.mpr hmem
              rw [List.count_append]
              simp [hcnt]

theorem removerecipient_absent_noop (st : Plugin) (id rid : Nat) (hne : id ≠ rid)
    (hwfA : ∀ s : Session, alookup st.heap id = some s → 1 ≤ s.ref)
    (hwfB : ∀ s : Session, alookup st.heap rid = some s → 1 ≤ s.ref)
    (hnin : rid ∉ recipientsOf id st) :
    (janus_lua_method_removerecipient id rid st).2 = st := by
  cases hA : alookup st.heap id with
  | none =>
    rw [show janus_lua_method_removerecipient id rid st = (-1, st) from by
      simp [janus_lua_method_removerecipient, hA]]
  | some sA =>
    have hrA := hwfA sA hA
    cases hB : alookup (refinc id st).heap rid with
    | none =>
      rw [show janus_lua_method_removerecipient id rid st =
          (-1, refdec id (refinc id st)) from by
        simp [janus_lua_method_removerecipient, hA, hB]]
      exact refdec_refinc_at hA hrA
    | some sB =>
      have hB0 : alookup st.heap rid = some sB := by
        have heq : alookup (refinc id st).heap rid = alookup st.heap rid := by
          show alookup (aupdate id _ st.heap) rid = _
          rw [alookup_aupdate_ne _ _ (Ne.symm hne)]
        rw [heq] at hB
        exact hB
      have hrB := hwfB sB hB0
      have hA2 : alookup (refinc rid (refinc id st)).heap id =
          some { sA with ref := sA.ref + 1 } := by
        show alookup (aupdate rid _ (aupdate id _ st.heap)) id = _
        rw [alookup_aupdate_ne _ _ hne, alookup_aupdate_self, hA]
        rfl
      have hninA : rid ∉ sA.recipients := by
        unfold recipientsOf at hnin
        rw [hA] at hnin
        exact hnin
      rw [show janus_lua_method_removerecipient id rid st =
          (0, refdec rid (refdec id (refinc rid (refinc id st)))) from by
        simp [janus_lua_method_removerecipient, hA, hB, hA2, hninA]]
      show refdec rid (refdec id (refinc rid (refinc id st))) = st
      rw [refdec_refinc_comm (refinc id st) hne, refdec_refinc_at hA hrA]
      exact refdec_refinc_at hB0 hrB

theorem aupdate_aupdate_cancel (l : List (Nat × Session)) {i : Nat}
    {f g : Session → Session}
    (hv : ∀ v, alookup l i = some v → f (g v) = v) :
    aupdate i f (aupdate i g l) = l := by
  rw [aupdate_aupdate_self]
  exact aupdate_lookup_id _ hv

theorem addremove_roundtrip (st : Plugin) (id rid : Nat) (sA sB : Session)
    (hne : id ≠ rid)
    (hA : alookup st.heap id = some sA) (hdA : sA.destroyed = false) (hrA : 1 ≤ sA.ref)
    (hB : alookup st.heap rid = some sB) (hdB : sB.destroyed = false) (hrB : 1 ≤ sB.ref)
    (hnin : rid ∉ sA.recipients) :
    (janus_lua_method_removerecipient id rid
      (janus_lua_method_addrecipient id rid st).2).2 = st := by
  rw [addrecipient_spec st id rid sA sB hne hA hdA hrA hB hdB hrB hnin]
  have hA1 : alookup (Plugin.mk
      (aupdate id (fun t => { t with ref := t.ref + 1, recipients := t.recipients ++ [rid] })
        (aupdate rid (fun t => { t with ref := t.ref + 1 }) st.heap)) st.handles).heap id =
      some { sA with ref := sA.ref + 1, recipients := sA.recipients ++ [rid] } := by
    show alookup (aupdate id _ (aupdate rid _ st.heap)) id = _
    rw [alookup_aupdate_self, alookup_aupdate_ne _ _ hne, hA]
    rfl
  have hB1 : alookup (Plugin.mk
      (aupdate id (fun t => { t with ref := t.ref + 1, recipients := t.recipients ++ [rid] })
        (aupdate rid (fun t => { t with ref := t.ref + 1 }) st.heap)) st.handles).heap rid =
      some { sB with ref := sB.ref + 1 } := by
    show alookup (aupdate id _ (aupdate rid _ st.heap)) rid = _
    rw [alookup_aupdate_ne _ _ (Ne.symm hne), alookup_aupdate_self, hB]
    rfl
  rw [removerecipient_spec _ id rid _ _ hne hA1 (by show 2 ≤ sA.ref + 1; omega)
    hB1 (by show 2 ≤ sB.ref + 1; omega) (by
      show rid ∈ sA.recipients ++ [rid]
      exact List.mem_append.mpr (Or.inr (List.mem_singleton.mpr rfl)))]
  show Plugin.mk (aupdate id _ (aupdate rid _ (aupdate id _ (aupdate rid _ st.heap))))
    st.handles = st
  have hheap : aupdate id
      (fun t => { t with ref := t.ref - 1, recipients := t.recipients.erase rid })
      (aupdate rid (fun t => { t with ref := t.ref - 1 })
      (aupdate id (fun t => { t with ref := t.ref + 1, recipients := t.recipients ++ [rid] })
      (aupdate rid (fun t => { t with ref := t.ref + 1 }) st.heap))) = st.heap := by
    rw [aupdate_comm _ _ _ (Ne.symm hne)]
    have hc1 : ∀ v : Session, alookup st.heap rid = some v →
        ((fun t : Session => { t with ref := t.ref - 1 })
          ((fun t : Session => { t with ref := t.ref + 1 }) v)) = v := fun v _ => rfl
    rw [aupdate_aupdate_cancel st.heap hc1]
    have hc2 : ∀ v : Session, alookup st.heap id = some v →
        ((fun t : Session => { t with ref := t.ref - 1, recipients := t.recipients.erase rid })
          ((fun t : Session => { t with ref := t.ref + 1, recipients := t.recipients ++ [rid] }) v)) = v := by
      intro v hv
      rw [hA] at hv
      cases hv
      show ({ sA with ref := sA.ref + 1 - 1, recipients := (sA.recipients ++ [rid]).erase rid } : Session) = sA
      rw [List.erase_append_right _ hnin, List.erase_cons_head, List.append_nil, Nat.add_sub_cancel]
    rw [aupdate_aupdate_cancel st.heap hc2]
  rw [hheap]

/-- C3 counterexample: when session 2 is already in session 1's recipient
list, addRecipient(1,2) is a no-op but the following removeRecipient(1,2)
removes the entry and releases one reference on each side, so add-then-remove
does not return the registry to its prior state. -/
theorem c3_counterexample :
    (janus_lua_method_removerecipient 1 2
      (janus_lua_method_addrecipient 1 2 twoSessionsLinked).2).2 ≠ twoSessionsLinked := by
  decide

/-- C3 amended: a session never appears more than once in a recipient list no
matter how many times addRecipient is called; removeRecipient of an absent
recipient is a no-op on the registry state; and, provided B is not already in
A's recipient list, addRecipient(A,B) followed by removeRecipient(A,B)
returns both sessions' reference counts and A's recipient list to their exact
prior state. -/
theorem c3_recipient_relation :
    (∀ st id rid, (recipientsOf id st).count rid ≤ 1 →
      (recipientsOf id (janus_lua_method_addrecipient id rid st).2).count rid ≤ 1) ∧
    (∀ st id rid, id ≠ rid →
      (∀ s : Session, alookup st.heap id = some s → 1 ≤ s.ref) →
      (∀ s : Session, alookup st.heap rid = some s → 1 ≤ s.ref) →
      rid ∉ recipientsOf id st →
      (janus_lua_method_removerecipient id rid st).2 = st) ∧
    (∀ st id rid sA sB, id ≠ rid →
      alookup st.heap id = some sA → sA.destroyed = false → 1 ≤ sA.ref →
      alookup st.heap rid = some sB → sB.destroyed = false → 1 ≤ sB.ref →
      rid ∉ sA.recipients →
      (janus_lua_method_removerecipient id rid
        (janus_lua_method_addrecipient id rid st).2).2 = st) :=
  ⟨fun st id rid h => addrecipient_count_le st id rid h,
   fun st id rid hne hwfA hwfB hnin =>
     removerecipient_absent_noop st id rid hne hwfA hwfB hnin,
   fun st id rid sA sB hne hA hdA hrA hB hdB hrB hnin =>
     addremove_roundtrip st id rid sA sB hne hA hdA hrA hB hdB hrB hnin⟩

theorem c3_recipient_relation_witness :
    (recipientsOf 1 (janus_lua_method_addrecipient 1 2 twoSessionsLinked).2).count 2 ≤ 1 ∧
    (janus_lua_method_removerecipient 2 1 twoSessionsLinked).2 = twoSessionsLinked ∧
    (janus_lua_method_removerecipient 2 1
      (janus_lua_method_addrecipient 2 1 twoSessionsLinked).2).2 = twoSessionsLinked := by
  refine ⟨c3_recipient_relation.1 twoSessionsLinked 1 2 (by decide), ?_, ?_⟩
  · refine c3_recipient_relation.2.1 twoSessionsLinked 2 1 (by decide) ?_ ?_ (by decide)
    · intro s h
      rw [show alookup twoSessionsLinked.heap 2 =
          some { freshSession 2 with ref := 2 } from by decide] at h
      injection h with h2
      rw [← h2]
      decide
    · intro s h
      rw [show alookup twoSessionsLinked.heap 1 =
          some { freshSession 1 with ref := 2, recipients := [2] } from by decide] at h
      injection h with h2
      rw [← h2]
      decide
  · exact c3_recipient_relation.2.2 twoSessionsLinked 2 1
      { freshSession 2 with ref := 2 }
      { freshSession 1 with ref := 2, recipients := [2] }
      (by decide) (by decide) (by decide) (by decide) (by decide) (by decide) (by decide)
      (by decide)

theorem refdec_handles (i : Nat) (st : Plugin) :
    (refdec i st).handles = st.handles := by
  cases hlk : alookup st.heap i with
  | none => rw [refdec_of_lookup_none hlk]
  | some s =>
    by_cases h : s.ref ≤ 1
    · rw [refdec, hlk, refdecAux, if_pos h]
    · rw [refdec, hlk, refdecAux, if_neg h]

theorem session_destroy_handles (i : Nat) (st : Plugin) :
    (janus_lua_session_destroy i st).handles = st.handles := by
  cases hlk : alookup st.heap i with
  | none =>
    rw [show janus_lua_session_destroy i st = st from by
      simp [janus_lua_session_destroy, hlk]]
  | some s =>
    by_cases hd : s.destroyed = true
    · rw [show janus_lua_session_destroy i st = st from by
        simp [janus_lua_session_destroy, hlk, hd]]
    · rw [show janus_lua_session_destroy i st = refdec i
          { st with heap := aupdate i (fun t => { t with destroyed := true }) st.heap } from by
        simp [janus_lua_session_destroy, hlk, hd]]
      exact refdec_handles i _

theorem resolveSession_refdec_of_destroyed {Y : Plugin} {i : Nat} {t : Session}
    (hlk : alookup Y.heap i = some t) (hd : t.destroyed = true) :
    resolveSession i (refdec i Y) = none := by
  by_cases hr : t.ref ≤ 1
  · rw [refdec, hlk, refdecAux, if_pos hr]
    show resolveSession i (Plugin.mk (aremove i Y.heap) Y.handles) = none
    simp [resolveSession, alookup_aremove_self]
  · rw [refdec, hlk, refdecAux, if_neg hr]
    have hlk2 : alookup (aupdate i (fun u : Session => { u with ref := u.ref - 1 }) Y.heap) i =
        some { t with ref := t.ref - 1 } := by
      rw [alookup_aupdate_self, hlk]
      rfl
    show resolveSession i (Plugin.mk
      (aupdate i (fun u => { u with ref := u.ref - 1 }) Y.heap) Y.handles) = none
    simp [resolveSession, hlk2, hd]

theorem resolveSession_session_destroy (i : Nat) (st : Plugin) :
    resolveSession i (janus_lua_session_destroy i st) = none := by
  cases hlk : alookup st.heap i with
  | none =>
    rw [show janus_lua_session_destroy i st = st from by
      simp [janus_lua_session_destroy, hlk]]
    simp [resolveSession, hlk]
  | some s =>
    by_cases hd : s.destroyed = true
    · rw [show janus_lua_session_destroy i st = st from by
        simp [janus_lua_session_destroy, hlk, hd]]
      simp [resolveSession, hlk, hd]
    · rw [show janus_lua_session_destroy i st = refdec i
          { st with heap := aupdate i (fun t => { t with destroyed := true }) st.heap } from by
        simp [janus_lua_session_destroy, hlk, hd]]
      refine resolveSession_refdec_of_destroyed (t := { s with destroyed := true }) ?_ rfl
      show alookup (aupdate i (fun t : Session => { t with destroyed := true }) st.heap) i = _
      rw [alookup_aupdate_self, hlk]
      rfl

/-- C6 counterexample: after destroying session 2's handle while session 1
still relays to it, the id-keyed lookup still finds the (destroyed) session
record, and removeRecipient — whose session-id resolution skips the destroyed
check — succeeds with status 0 instead of finding nothing. -/
theorem c6_counterexample :
    lookup_by_id 2 destroyedButReferenced ≠ none ∧
    (janus_lua_method_removerecipient 1 2 destroyedButReferenced).1 = 0 := by
  decide

/-- C6 amended: lookup by id and lookup by host handle agree on the stored
session while the handle is registered; after destroy returns, lookup by that
handle returns nothing, the destroyed-checking session-id resolution used by
every call-out except removeRecipient returns nothing, and once no other
reference holder remains (refcount one at destroy time) the raw id lookup
returns nothing as well; removeRecipient alone can still reach the
destroyed-but-referenced record. -/
theorem c6_destroy_lookup (st : Plugin) (h : Nat) :
    lookup_by_handle h (janus_lua_destroy_session h st).2 = none ∧
    (∀ i, alookup st.handles h = some i →
      resolveSession i (janus_lua_destroy_session h st).2 = none) ∧
    (∀ i s, alookup st.handles h = some i → alookup st.heap i = some s →
      s.destroyed = false → s.ref = 1 →
      lookup_by_id i (janus_lua_destroy_session h st).2 = none) ∧
    (∀ i, alookup st.handles h = some i →
      lookup_by_handle h st = lookup_by_id i st) := by
  refine ⟨?_, ?_, ?_, ?_⟩
  · cases hh : alookup st.handles h with
    | none =>
      rw [show janus_lua_destroy_session h st = (-2, st) from by
        simp [janus_lua_destroy_session, hh]]
      simp [lookup_by_handle, hh]
    | some i =>
      rw [show janus_lua_destroy_session h st =
          (0, janus_lua_session_destroy i { st with handles := aremove h st.handles }) from by
        simp [janus_lua_destroy_session, hh]]
      unfold lookup_by_handle
      rw [show (janus_lua_session_destroy i
          { st with handles := aremove h st.handles }).handles =
          aremove h st.handles from session_destroy_handles i _]
      rw [alookup_aremove_self]
  · intro i hh
    rw [show janus_lua_destroy_session h st =
        (0, janus_lua_session_destroy i { st with handles := aremove h st.handles }) from by
      simp [janus_lua_destroy_session, hh]]
    exact resolveSession_session_destroy i _
  · intro i s hh hlk hd hr1
    rw [show janus_lua_destroy_session h st =
        (0, janus_lua_session_destroy i { st with handles := aremove h st.handles }) from by
      simp [janus_lua_destroy_session, hh]]
    rw [show janus_lua_session_destroy i { st with handles := aremove h st.handles } =
        refdec i (Plugin.mk (aupdate i (fun t => { t with destroyed := true }) st.heap)
          (aremove h st.handles)) from by
      simp [janus_lua_session_destroy, hlk, hd]]
    have hlk2 : alookup (Plugin.mk
        (aupdate i (fun t : Session => { t with destroyed := true }) st.heap)
        (aremove h st.handles)).heap i = some { s with destroyed := true } := by
      show alookup (aupdate i _ st.heap) i = _
      rw [alookup_aupdate_self, hlk]
      rfl
    rw [refdec, hlk2, refdecAux, if_pos (by show s.ref ≤ 1; omega)]
    show lookup_by_id i (Plugin.mk (aremove i (aupdate i
      (fun t : Session => { t with destroyed := true }) st.heap)) (aremove h st.handles)) = none
    simp [lookup_by_id, alookup_aremove_self]
  · intro i hh
    unfold lookup_by_handle lookup_by_id
    rw [hh]

theorem c6_destroy_lookup_witness :
    lookup_by_handle 50 (janus_lua_destroy_session 50 oneSession).2 = none ∧
    resolveSession 5 (janus_lua_destroy_session 50 oneSession).2 = none ∧
    lookup_by_id 5 (janus_lua_destroy_session 50 oneSession).2 = none ∧
    lookup_by_handle 50 oneSession = lookup_by_id 5 oneSession := by
  have hmain := c6_destroy_lookup oneSession 50
  exact ⟨hmain.1, hmain.2.1 5 (by decide),
    hmain.2.2.1 5 (freshSession 5) (by decide) (by decide) (by decide) (by decide),
    hmain.2.2.2 5 (by decide)⟩

end JanusLua
